import Mathlib

/-!
Shallow embedding of the nuklaivm action-execution core: the staking actions
(`UnstakeValidator`, `WithdrawValidatorStake`, `DelegateUserStake`) and the
genesis loader, together with the storage layer and emission-engine operations
they call, and the fixed-format binary codec used by `Marshal`/`Unmarshal`.

Machine integers (`uint64`) are modelled as `Nat` with explicit overflow
checks against `2^64`.  Byte strings are `List Nat`.  Storage I/O failure is
modelled by per-operation fault flags carried in the ledger, so that the
error-propagation behaviour of each `Execute` can be stated and checked.
-/

namespace NuklaiVM

/-- A byte of a binary encoding (value `< 256` where it matters). -/
abbrev Byte := Nat

/-- An account address (`codec.Address`, 33 bytes), modelled abstractly. -/
abbrev Address := Nat

/-- A 32-byte id (`ids.ID`), modelled as a natural number `< 2^256`. -/
abbrev TxID := Nat

/-- An asset id; the native asset uses the reserved empty id. -/
abbrev AssetID := Nat

/-- The reserved empty id (`ids.Empty`) used for the native asset. -/
def idEmpty : AssetID := 0

/-- A validator node id, as its byte representation (`ids.NodeID.Bytes()`). -/
abbrev NodeID := List Byte

/-- `consts.NodeIDLen`: a node id is 20 bytes. -/
def nodeIDLen : Nat := 20

/-- `consts.IDLen`: an `ids.ID` is 32 bytes. -/
def idLen : Nat := 32

/-- `codec.AddressLen`: an address is 33 bytes. -/
def addressLen : Nat := 33

/-- `consts.Uint64Len`: a `uint64` is 8 bytes. -/
def uint64Len : Nat := 8

/-- Exclusive upper bound of `uint64`. -/
def u64Bound : Nat := 2 ^ 64

/-- `ids.ToNodeID`: converting a byte slice to a node id fails unless the
slice is exactly `nodeIDLen` bytes long. -/
def toNodeID (b : List Byte) : Option NodeID :=
  if b.length = nodeIDLen then some b else none

/-- Go `error` values that the modelled operations can produce. -/
inductive GoError where
  /-- A storage I/O failure (database error). -/
  | ioFault : GoError
  /-- `math.Add64` overflow. -/
  | overflow : GoError
  /-- Balance subtraction with insufficient funds. -/
  | invalidBalance : GoError
  /-- Emission engine: the (owner, node-id) key already has an active
  delegation. -/
  | alreadyDelegatedInEmission : GoError
  /-- Emission engine: no registered validator under the node id. -/
  | validatorNotFoundInEmission : GoError
  /-- `codec.ParseAddressBech32` failure for the given string. -/
  | parseAddress (s : String) : GoError
  /-- `merkledb.BranchFactor.Valid` failure. -/
  | invalidBranchFactor : GoError
deriving DecidableEq, Repr

/-- The output-byte payload of an action execution (`[]byte` constants from
the actions package, `utils.ErrBytes`, or a marshalled result). -/
inductive OutputPayload where
  /-- `nil` output bytes. -/
  | noBytes : OutputPayload
  | stakeMissing : OutputPayload
  | unauthorized : OutputPayload
  | differentNodeIDThanStaked : OutputPayload
  | invalidNodeID : OutputPayload
  | validatorAlreadyRegistered : OutputPayload
  | stakeNotStarted : OutputPayload
  | validatorNotYetRegistered : OutputPayload
  | userAlreadyStaked : OutputPayload
  | delegateStakedAmountInvalid : OutputPayload
  | invalidStakeEndBlock : OutputPayload
  | invalidStakeStartBlock : OutputPayload
  /-- `utils.ErrBytes(err)`: an error message rendered into output bytes. -/
  | errBytes (e : GoError) : OutputPayload
  /-- A marshalled `RegisterStakeResult` carrying the staked amount. -/
  | stakeResult (amount : Nat) : OutputPayload
deriving DecidableEq, Repr

/-- The `(success, computeUnits, outputBytes, error)` part of the return
tuple of `chain.Action.Execute` (the warp message slot is always `nil` for
the staking actions and is omitted). -/
structure ExecResult where
  success : Bool
  units : Nat
  output : OutputPayload
  err : Option GoError
deriving DecidableEq, Repr

/-- Modelled from the spec: numeric values of the per-action compute-unit
constants are not among the sources; distinct placeholder values are used
(no claim depends on the numbers, only on which constant is charged). -/
def unstakeValidatorComputeUnits : Nat := 1

/-- See `unstakeValidatorComputeUnits`. -/
def withdrawValidatorStakeComputeUnits : Nat := 2

/-- See `unstakeValidatorComputeUnits`. -/
def delegateUserStakeComputeUnits : Nat := 3

/-- See `unstakeValidatorComputeUnits`. -/
def registerValidatorStakeComputeUnits : Nat := 4

/-- The stake record read by `storage.GetStake` (keyed by stake tx id):
`(nodeID, stakedAmount, endLockUp, owner)`; only the node id and the owner
are used by `UnstakeValidator.Execute`. -/
structure StakeRecord where
  nodeID : NodeID
  stakedAmount : Nat
  endLockUp : Nat
  owner : Address
deriving DecidableEq, Repr

/-- The validator stake record read by `storage.GetRegisterValidatorStake`
(keyed by node id), per the data model: `{stakeStartTime, stakeEndTime,
stakedAmount, delegationFeeRate, rewardAddress, ownerAddress}`. -/
structure ValidatorStakeRecord where
  stakeStartTime : Nat
  stakeEndTime : Nat
  stakedAmount : Nat
  delegationFeeRate : Nat
  rewardAddress : Address
  ownerAddress : Address
deriving DecidableEq, Repr

/-- The delegator stake record written by `storage.SetDelegateUserStake`
(keyed by (owner, node id)). -/
structure DelegationRecord where
  stakeStartBlock : Nat
  stakeEndBlock : Nat
  stakedAmount : Nat
  rewardAddress : Address
deriving DecidableEq, Repr

/-- The native/created asset record written by `storage.SetAsset`. -/
structure AssetRecord where
  symbol : String
  decimals : Nat
  name : String
  totalSupply : Nat
  owner : Address
  isWarp : Bool
deriving DecidableEq, Repr

/-- Fault-injection flags modelling storage I/O failure of each storage
operation used by the modelled code: an operation returns a database error
exactly when its flag is set. -/
structure Faults where
  onGetStake : Bool
  onGetRegisterValidatorStake : Bool
  onGetDelegateUserStake : Bool
  onAddBalance : Bool
  onSubBalance : Bool
  onSetDelegateUserStake : Bool
  onDeleteRegisterValidatorStake : Bool
  onSetBalance : Bool
  onSetAsset : Bool
deriving DecidableEq, Repr

/-- No storage faults: every storage operation succeeds at the I/O level. -/
def noFaults : Faults :=
  ⟨false, false, false, false, false, false, false, false, false⟩

/-- The keyed byte-store (`state.Mutable`) as a typed ledger, with the
fault-injection flags for its I/O. -/
structure Ledger where
  balances : Address → AssetID → Nat
  stakes : TxID → Option StakeRecord
  validatorStakes : NodeID → Option ValidatorStakeRecord
  delegations : Address → NodeID → Option DelegationRecord
  assets : AssetID → Option AssetRecord
  faults : Faults

/-- The emission-engine singleton state used by the modelled actions:
last accepted block height/timestamp, the accumulated reward of each
registered validator, and the delegation bookkeeping keyed by
(owner, node id). -/
structure EmissionState where
  lastAcceptedBlockHeight : Nat
  lastAcceptedBlockTimestamp : Int
  validators : NodeID → Option Nat
  delegators : Address → NodeID → Bool

/-- The full mutable state an action execution can touch: the ledger passed
as `state.Mutable` plus the process-wide emission engine. -/
structure World where
  ledger : Ledger
  emission : EmissionState

/-- The staking configuration (`emission.GetStakingConfig()`); only the
minimum delegator stake is used by the modelled actions. -/
structure StakingConfig where
  minDelegatorStake : Nat
deriving DecidableEq, Repr

/-- Modelled from the spec: `storage.GetStake` is not among the sources;
it reads the stake record under the stake tx id, returning a database error
on I/O failure and absence (with nil error) when the key is missing. -/
def getStake (led : Ledger) (stake : TxID) : Except GoError (Option StakeRecord) :=
  if led.faults.onGetStake then .error .ioFault else .ok (led.stakes stake)

/-- Modelled from the spec: `storage.GetRegisterValidatorStake` is not among
the sources; it reads the validator stake record under the node id. -/
def getRegisterValidatorStake (led : Ledger) (nodeID : NodeID) :
    Except GoError (Option ValidatorStakeRecord) :=
  if led.faults.onGetRegisterValidatorStake then .error .ioFault
  else .ok (led.validatorStakes nodeID)

/-- Modelled from the spec: `storage.GetDelegateUserStake` is not among the
sources; it reads the delegation record under (owner, node id). -/
def getDelegateUserStake (led : Ledger) (owner : Address) (nodeID : NodeID) :
    Except GoError (Option DelegationRecord) :=
  if led.faults.onGetDelegateUserStake then .error .ioFault
  else .ok (led.delegations owner nodeID)

/-- Modelled from the spec: `storage.AddBalance` is not among the sources;
it adds to the (address, asset) balance with `uint64` overflow checking,
erroring on overflow (fatal arithmetic condition) and on I/O failure. -/
def addBalance (led : Ledger) (addr : Address) (asset : AssetID) (amount : Nat) :
    Except GoError Ledger :=
  if led.faults.onAddBalance then .error .ioFault
  else if led.balances addr asset + amount ≥ u64Bound then .error .overflow
  else .ok { led with
    balances := fun a t =>
      if a = addr ∧ t = asset then led.balances addr asset + amount
      else led.balances a t }

/-- Modelled from the spec: `storage.SubBalance` is not among the sources;
it subtracts from the (address, asset) balance, erroring when the balance is
insufficient (balances never go negative) and on I/O failure. -/
def subBalance (led : Ledger) (addr : Address) (asset : AssetID) (amount : Nat) :
    Except GoError Ledger :=
  if led.faults.onSubBalance then .error .ioFault
  else if led.balances addr asset < amount then .error .invalidBalance
  else .ok { led with
    balances := fun a t =>
      if a = addr ∧ t = asset then led.balances addr asset - amount
      else led.balances a t }

/-- Modelled from the spec: `storage.SetDelegateUserStake` is not among the
sources; it writes the delegation record under (owner, node id). -/
def setDelegateUserStake (led : Ledger) (owner : Address) (nodeID : NodeID)
    (startBlock endBlock amount : Nat) (rewardAddress : Address) :
    Except GoError Ledger :=
  if led.faults.onSetDelegateUserStake then .error .ioFault
  else .ok { led with
    delegations := fun o n =>
      if o = owner ∧ n = nodeID then some ⟨startBlock, endBlock, amount, rewardAddress⟩
      else led.delegations o n }

/-- Modelled from the spec: `storage.DeleteRegisterValidatorStake` is not
among the sources; it removes the validator stake record under the node id. -/
def deleteRegisterValidatorStake (led : Ledger) (nodeID : NodeID) :
    Except GoError Ledger :=
  if led.faults.onDeleteRegisterValidatorStake then .error .ioFault
  else .ok { led with
    validatorStakes := fun n =>
      if n = nodeID then none else led.validatorStakes n }

/-- Modelled from the spec: `storage.SetBalance` is not among the sources;
it sets the (address, asset) balance to the given amount. -/
def setBalance (led : Ledger) (addr : Address) (asset : AssetID) (amount : Nat) :
    Except GoError Ledger :=
  if led.faults.onSetBalance then .error .ioFault
  else .ok { led with
    balances := fun a t =>
      if a = addr ∧ t = asset then amount else led.balances a t }

/-- Modelled from the spec: `storage.SetAsset` is not among the sources;
it writes the asset record under the asset id. -/
def setAsset (led : Ledger) (asset : AssetID) (symbol : String) (decimals : Nat)
    (name : String) (supply : Nat) (owner : Address) (isWarp : Bool) :
    Except GoError Ledger :=
  if led.faults.onSetAsset then .error .ioFault
  else .ok { led with
    assets := fun t =>
      if t = asset then some ⟨symbol, decimals, name, supply, owner, isWarp⟩
      else led.assets t }

/-- Modelled from the spec: the emission engine's `DelegateUserStake`
mutates the internal delegation map keyed by (owner, node id), enforcing the
one-active-stake-per-key invariant (error when the key already has an active
delegation). -/
def emissionDelegateUserStake (em : EmissionState) (nodeID : NodeID)
    (owner : Address) : Except GoError EmissionState :=
  if em.delegators owner nodeID then .error .alreadyDelegatedInEmission
  else .ok { em with
    delegators := fun o n =>
      if o = owner ∧ n = nodeID then true else em.delegators o n }

/-- Modelled from the spec: the emission engine's `WithdrawValidatorStake`
removes the validator from the internal map and returns its previously
accumulated reward, erroring when the node id is not registered. -/
def emissionWithdrawValidatorStake (em : EmissionState) (nodeID : NodeID) :
    Except GoError (Nat × EmissionState) :=
  match em.validators nodeID with
  | none => .error .validatorNotFoundInEmission
  | some reward =>
      .ok (reward, { em with
        validators := fun n => if n = nodeID then none else em.validators n })

/-- The action field values of `UnstakeValidator`. -/
structure UnstakeValidatorAction where
  stake : TxID
  nodeID : List Byte
deriving DecidableEq, Repr

/-- The action field values of `WithdrawValidatorStake`. -/
structure WithdrawValidatorStakeAction where
  nodeID : List Byte
deriving DecidableEq, Repr

/-- The action field values of `DelegateUserStake`. -/
structure DelegateUserStakeAction where
  nodeID : List Byte
  stakeStartBlock : Nat
  stakeEndBlock : Nat
  stakedAmount : Nat
  rewardAddress : Address
deriving DecidableEq, Repr

/-- `UnstakeValidator.Execute` (src/actions/unstake_validator.go): reads the
stake record by stake tx id; rejects when the read fails (error rendered to
output bytes, nil error), when the record is missing, when the caller is not
the owner, or when the supplied node id differs byte-for-byte from the
staked one; otherwise succeeds.  No storage write or emission-engine call
occurs on any path, so the world is returned unchanged. -/
def unstakeValidatorExecute (w : World) (act : UnstakeValidatorAction)
    (actor : Address) : ExecResult × World :=
  match getStake w.ledger act.stake with
  | .error e =>
      (⟨false, unstakeValidatorComputeUnits, .errBytes e, none⟩, w)
  | .ok none =>
      (⟨false, unstakeValidatorComputeUnits, .stakeMissing, none⟩, w)
  | .ok (some r) =>
      if r.owner ≠ actor then
        (⟨false, unstakeValidatorComputeUnits, .unauthorized, none⟩, w)
      else if r.nodeID ≠ act.nodeID then
        (⟨false, unstakeValidatorComputeUnits, .differentNodeIDThanStaked, none⟩, w)
      else
        (⟨true, unstakeValidatorComputeUnits, .noBytes, none⟩, w)

/-- `WithdrawValidatorStake.Execute` (src/actions/withdraw_validator_stake.go).
`now` is the wall-clock time read by `time.Now().UTC()` (unix seconds).  The
error of `storage.GetRegisterValidatorStake` is discarded at the call site
(`exists, ..., _ :=`), so an I/O failure is indistinguishable from an absent
record there.  A rejection after the emission-engine withdrawal leaves the
emission mutation in place. -/
def withdrawValidatorStakeExecute (w : World) (act : WithdrawValidatorStakeAction)
    (actor : Address) (now : Int) : ExecResult × World :=
  match toNodeID act.nodeID with
  | none =>
      (⟨false, withdrawValidatorStakeComputeUnits, .invalidNodeID, none⟩, w)
  | some nodeID =>
      -- call site unpacks (exists, ...) and ignores the error value
      let rec? : Option ValidatorStakeRecord :=
        match getRegisterValidatorStake w.ledger nodeID with
        | .error _ => none
        | .ok o => o
      match rec? with
      | none =>
          (⟨false, withdrawValidatorStakeComputeUnits, .validatorAlreadyRegistered, none⟩, w)
      | some r =>
          if r.ownerAddress ≠ actor then
            (⟨false, withdrawValidatorStakeComputeUnits, .unauthorized, none⟩, w)
          else
            let endTime : Int := (r.stakeEndTime : Int)
            if now < endTime ∨ w.emission.lastAcceptedBlockTimestamp < endTime then
              (⟨false, withdrawValidatorStakeComputeUnits, .stakeNotStarted, none⟩, w)
            else
              match emissionWithdrawValidatorStake w.emission nodeID with
              | .error e =>
                  (⟨false, withdrawValidatorStakeComputeUnits, .errBytes e, none⟩, w)
              | .ok (rewardAmount, em1) =>
                  let w1 : World := { w with emission := em1 }
                  match addBalance w1.ledger r.rewardAddress idEmpty rewardAmount with
                  | .error e =>
                      (⟨false, withdrawValidatorStakeComputeUnits, .errBytes e, none⟩, w1)
                  | .ok led1 =>
                      match deleteRegisterValidatorStake led1 nodeID with
                      | .error e =>
                          (⟨false, withdrawValidatorStakeComputeUnits, .errBytes e, none⟩,
                            { w1 with ledger := led1 })
                      | .ok led2 =>
                          match addBalance led2 actor idEmpty r.stakedAmount with
                          | .error e =>
                              (⟨false, withdrawValidatorStakeComputeUnits, .errBytes e, none⟩,
                                { w1 with ledger := led2 })
                          | .ok led3 =>
                              (⟨true, withdrawValidatorStakeComputeUnits,
                                  .stakeResult r.stakedAmount, none⟩,
                                { w1 with ledger := led3 })

/-- `DelegateUserStake.Execute` (src/actions/delegate_user_stake.go).  The
errors of both reads are discarded at their call sites (trailing `_`), so an
I/O failure reads as an absent record.  The validator-not-registered branch
charges `RegisterValidatorStakeComputeUnits` (as the source does).  The
emission-engine delegation occurs before the balance debit, so a debit or
record-write rejection leaves the emission mutation in place. -/
def delegateUserStakeExecute (cfg : StakingConfig) (w : World)
    (act : DelegateUserStakeAction) (actor : Address) : ExecResult × World :=
  match toNodeID act.nodeID with
  | none =>
      (⟨false, delegateUserStakeComputeUnits, .invalidNodeID, none⟩, w)
  | some nodeID =>
      -- call site unpacks (exists, ...) and ignores the error value
      let validatorExists : Bool :=
        match getRegisterValidatorStake w.ledger nodeID with
        | .error _ => false
        | .ok o => o.isSome
      if !validatorExists then
        (⟨false, registerValidatorStakeComputeUnits, .validatorNotYetRegistered, none⟩, w)
      else
        let delegationExists : Bool :=
          match getDelegateUserStake w.ledger actor nodeID with
          | .error _ => false
          | .ok o => o.isSome
        if delegationExists then
          (⟨false, delegateUserStakeComputeUnits, .userAlreadyStaked, none⟩, w)
        else if act.stakedAmount < cfg.minDelegatorStake then
          (⟨false, delegateUserStakeComputeUnits, .delegateStakedAmountInvalid, none⟩, w)
        else if act.stakeEndBlock ≤ act.stakeStartBlock then
          (⟨false, delegateUserStakeComputeUnits, .invalidStakeEndBlock, none⟩, w)
        else if act.stakeStartBlock < w.emission.lastAcceptedBlockHeight then
          (⟨false, delegateUserStakeComputeUnits, .invalidStakeStartBlock, none⟩, w)
        else
          match emissionDelegateUserStake w.emission nodeID actor with
          | .error e =>
              (⟨false, delegateUserStakeComputeUnits, .errBytes e, none⟩, w)
          | .ok em1 =>
              let w1 : World := { w with emission := em1 }
              match subBalance w1.ledger actor idEmpty act.stakedAmount with
              | .error e =>
                  (⟨false, delegateUserStakeComputeUnits, .errBytes e, none⟩, w1)
              | .ok led1 =>
                  match setDelegateUserStake led1 actor nodeID act.stakeStartBlock
                      act.stakeEndBlock act.stakedAmount act.rewardAddress with
                  | .error e =>
                      (⟨false, delegateUserStakeComputeUnits, .errBytes e, none⟩,
                        { w1 with ledger := led1 })
                  | .ok led2 =>
                      (⟨true, delegateUserStakeComputeUnits, .noBytes, none⟩,
                        { w1 with ledger := led2 })

/-- One entry of the genesis `customAllocation` list: a bech32 address
string and a balance (src/genesis/genesis.go). -/
structure CustomAllocation where
  address : String
  balance : Nat
deriving DecidableEq, Repr

/-- The part of the `Genesis` configuration used by `Genesis.Load`
(src/genesis/genesis.go); the chain/fee parameters it never reads are
omitted. -/
structure GenesisCfg where
  stateBranchFactor : Nat
  customAllocation : List CustomAllocation
deriving DecidableEq, Repr

/-- Modelled from the spec: `merkledb.BranchFactor.Valid` (avalanchego) is
not among the sources; the valid state branch factors are 2, 4, 16, 256. -/
def branchFactorValid (n : Nat) : Bool :=
  n = 2 ∨ n = 4 ∨ n = 16 ∨ n = 256

/-- `codec.EmptyAddress`, the all-zero address. -/
def emptyAddress : Address := 0

/-- Modelled from the spec: the native-asset symbol `consts.Symbol` is not
among the sources (placeholder value). -/
def nativeSymbol : String := "NAI"

/-- Modelled from the spec: the native-asset decimals `consts.Decimals` are
not among the sources (placeholder value). -/
def nativeDecimals : Nat := 9

/-- Modelled from the spec: the native-asset name `consts.Name` is not among
the sources (placeholder value). -/
def nativeName : String := "nuklaivm"

/-- The allocation loop of `Genesis.Load` (src/genesis/genesis.go): for each
allocation, parse the bech32 address, add its balance to the running supply
with `math.Add64` overflow checking, and set its native balance.
`parseAddr` models `codec.ParseAddressBech32`, whose implementation is not
among the sources. -/
def loadAllocations (parseAddr : String → Option Address)
    (allocs : List CustomAllocation) (led : Ledger) (supply : Nat) :
    Except GoError (Ledger × Nat) :=
  match allocs with
  | [] => .ok (led, supply)
  | alloc :: rest =>
      match parseAddr alloc.address with
      | none => .error (.parseAddress alloc.address)
      | some addr =>
          if supply + alloc.balance ≥ u64Bound then .error .overflow
          else
            match setBalance led addr idEmpty alloc.balance with
            | .error e => .error e
            | .ok led1 => loadAllocations parseAddr rest led1 (supply + alloc.balance)

/-- `Genesis.Load` (src/genesis/genesis.go): validate the state branch
factor, seed every allocation's native balance while summing the total
allocated supply with overflow checking, then write the native asset record
under the reserved empty id with that supply. -/
def genesisLoad (parseAddr : String → Option Address) (g : GenesisCfg)
    (led : Ledger) : Except GoError Ledger :=
  if ¬ branchFactorValid g.stateBranchFactor then .error .invalidBranchFactor
  else
    match loadAllocations parseAddr g.customAllocation led 0 with
    | .error e => .error e
    | .ok (led1, supply) =>
        setAsset led1 idEmpty nativeSymbol nativeDecimals nativeName supply
          emptyAddress false

/-! ### Binary codec

Modelled from the spec: the `codec.Packer` internals (hypersdk) are not
among the sources.  Per the external-interface contract, the encoding is
big-endian with fixed-width fields; variable-length byte arrays are written
with a 4-byte length followed by the raw bytes, and their readers take a
length limit and a required (reject-empty) flag, as visible at the
`UnpackBytes(limit, required, ...)` call sites in the sources. -/

/-- The `k`-byte big-endian encoding of `n` (mod `256^k`). -/
def toBytesBE : Nat → Nat → List Byte
  | 0, _ => []
  | k + 1, n => toBytesBE k (n / 256) ++ [n % 256]

/-- Read a big-endian byte list back to a natural number. -/
def fromBytesBE (l : List Byte) : Nat :=
  l.foldl (fun acc b => acc * 256 + b) 0

/-- `Packer.PackUint64`: 8 bytes big-endian. -/
def packUint64 (n : Nat) : List Byte := toBytesBE uint64Len n

/-- `Packer.PackID`: 32 raw bytes. -/
def packID (s : TxID) : List Byte := toBytesBE idLen s

/-- `Packer.PackAddress`: 33 raw bytes. -/
def packAddress (a : Address) : List Byte := toBytesBE addressLen a

/-- `Packer.PackBytes`: 4-byte big-endian length followed by the bytes. -/
def packLBytes (b : List Byte) : List Byte := toBytesBE 4 b.length ++ b

/-- Read exactly `k` bytes, failing on a shorter buffer. -/
def readBytesN (k : Nat) (b : List Byte) : Option (List Byte × List Byte) :=
  if k ≤ b.length then some (b.take k, b.drop k) else none

/-- `Packer.UnpackUint64`. -/
def unpackUint64 (b : List Byte) : Option (Nat × List Byte) :=
  (readBytesN uint64Len b).map fun p => (fromBytesBE p.1, p.2)

/-- `Packer.UnpackID`. -/
def unpackID (b : List Byte) : Option (TxID × List Byte) :=
  (readBytesN idLen b).map fun p => (fromBytesBE p.1, p.2)

/-- `Packer.UnpackAddress`. -/
def unpackAddress (b : List Byte) : Option (Address × List Byte) :=
  (readBytesN addressLen b).map fun p => (fromBytesBE p.1, p.2)

/-- `Packer.UnpackBytes limit required`: read the 4-byte length, reject an
empty array when required, reject a length above the limit, then read that
many bytes. -/
def unpackLBytes (limit : Nat) (required : Bool) (b : List Byte) :
    Option (List Byte × List Byte) :=
  match readBytesN 4 b with
  | none => none
  | some (lenBytes, rest) =>
      let len := fromBytesBE lenBytes
      if required ∧ len = 0 then none
      else if limit < len then none
      else readBytesN len rest

/-- `UnstakeValidator.Marshal` (src/actions/unstake_validator.go):
`PackID(Stake)` then `PackBytes(NodeID)`. -/
def marshalUnstakeValidator (a : UnstakeValidatorAction) : List Byte :=
  packID a.stake ++ packLBytes a.nodeID

/-- `UnstakeValidator.Size` (src/actions/unstake_validator.go): returns
`consts.IDLen` only. -/
def unstakeValidatorSize : Nat := idLen

/-- `UnmarshalUnstakeValidator` (src/actions/unstake_validator.go):
`UnpackID(true)` then `UnpackBytes(NodeIDLen, false)`.  The emptiness check
of the id's required flag is hypersdk-internal and not modelled. -/
def unmarshalUnstakeValidatorBody (b : List Byte) :
    Option (UnstakeValidatorAction × List Byte) :=
  match unpackID b with
  | none => none
  | some (stake, r1) =>
      match unpackLBytes nodeIDLen false r1 with
      | none => none
      | some (nid, r2) => some (⟨stake, nid⟩, r2)

/-- Modelled from the spec: registry-level decoding rejects over-length
buffers, so the full decode requires the unmarshal body to consume the
buffer exactly. -/
def decodeUnstakeValidator (b : List Byte) : Option UnstakeValidatorAction :=
  match unmarshalUnstakeValidatorBody b with
  | some (a, []) => some a
  | _ => none

/-- `DelegateUserStake.Marshal` (src/actions/delegate_user_stake.go):
`PackBytes(NodeID)`, three `PackUint64`, `PackAddress`. -/
def marshalDelegateUserStake (a : DelegateUserStakeAction) : List Byte :=
  packLBytes a.nodeID ++ packUint64 a.stakeStartBlock ++
    packUint64 a.stakeEndBlock ++ packUint64 a.stakedAmount ++
    packAddress a.rewardAddress

/-- `DelegateUserStake.Size` (src/actions/delegate_user_stake.go):
`NodeIDLen + 3*Uint64Len + AddressLen`. -/
def delegateUserStakeSize : Nat := nodeIDLen + 3 * uint64Len + addressLen

/-- `UnmarshalDelegateUserStake` (src/actions/delegate_user_stake.go):
`UnpackBytes(NodeIDLen, true)`, three `UnpackUint64(true)`,
`UnpackAddress`.  The zero-value checks of the uint64 required flags are
hypersdk-internal and not modelled. -/
def unmarshalDelegateUserStakeBody (b : List Byte) :
    Option (DelegateUserStakeAction × List Byte) :=
  match unpackLBytes nodeIDLen true b with
  | none => none
  | some (nid, r1) =>
      match unpackUint64 r1 with
      | none => none
      | some (startBlock, r2) =>
          match unpackUint64 r2 with
          | none => none
          | some (endBlock, r3) =>
              match unpackUint64 r3 with
              | none => none
              | some (amount, r4) =>
                  match unpackAddress r4 with
                  | none => none
                  | some (rewardAddr, r5) =>
                      some (⟨nid, startBlock, endBlock, amount, rewardAddr⟩, r5)

/-- Modelled from the spec: registry-level decoding rejects over-length
buffers (see `decodeUnstakeValidator`). -/
def decodeDelegateUserStake (b : List Byte) : Option DelegateUserStakeAction :=
  match unmarshalDelegateUserStakeBody b with
  | some (a, []) => some a
  | _ => none

/-- `WithdrawValidatorStake.Marshal` (src/actions/withdraw_validator_stake.go):
`PackBytes(NodeID)`. -/
def marshalWithdrawValidatorStake (a : WithdrawValidatorStakeAction) :
    List Byte :=
  packLBytes a.nodeID

/-- `UnmarshalWithdrawValidatorStake`
(src/actions/withdraw_validator_stake.go): `UnpackBytes(NodeIDLen, true)`. -/
def unmarshalWithdrawValidatorStakeBody (b : List Byte) :
    Option (WithdrawValidatorStakeAction × List Byte) :=
  match unpackLBytes nodeIDLen true b with
  | none => none
  | some (nid, r1) => some (⟨nid⟩, r1)

/-- Modelled from the spec: registry-level decoding rejects over-length
buffers (see `decodeUnstakeValidator`). -/
def decodeWithdrawValidatorStake (b : List Byte) :
    Option WithdrawValidatorStakeAction :=
  match unmarshalWithdrawValidatorStakeBody b with
  | some (a, []) => some a
  | _ => none

/-! ### Codec lemmas -/

lemma toBytesBE_length (k n : Nat) : (toBytesBE k n).length = k := by
  induction k generalizing n with
  | zero => simp [toBytesBE]
  | succ k ih => simp [toBytesBE, ih]

lemma fromBytesBE_snoc (l : List Byte) (b : Byte) :
    fromBytesBE (l ++ [b]) = fromBytesBE l * 256 + b := by
  simp [fromBytesBE, List.foldl_append]

lemma fromBytesBE_toBytesBE (k n : Nat) (h : n < 256 ^ k) :
    fromBytesBE (toBytesBE k n) = n := by
  induction k generalizing n with
  | zero =>
      simp only [pow_zero, Nat.lt_one_iff] at h
      simp [toBytesBE, fromBytesBE, h]
  | succ k ih =>
      have h2 : n / 256 < 256 ^ k := by
        rw [Nat.div_lt_iff_lt_mul (by norm_num : 0 < 256)]
        calc n < 256 ^ (k + 1) := h
          _ = 256 ^ k * 256 := by ring
      rw [toBytesBE, fromBytesBE_snoc, ih _ h2]
      omega

lemma readBytesN_append (l rest : List Byte) :
    readBytesN l.length (l ++ rest) = some (l, rest) := by
  simp [readBytesN, List.take_left, List.drop_left]

lemma readBytesN_short (k : Nat) (b : List Byte) (h : b.length < k) :
    readBytesN k b = none := by
  simp only [readBytesN, ite_eq_right_iff]
  omega

lemma take_append_ge (l1 l2 : List Byte) (k : Nat) (h : l1.length ≤ k) :
    (l1 ++ l2).take k = l1 ++ l2.take (k - l1.length) := by
  rw [List.take_append_eq_append_take, List.take_of_length_le h]

lemma unpack_toBytesBE (k n : Nat) (rest : List Byte) (h : n < 256 ^ k) :
    (readBytesN k (toBytesBE k n ++ rest)).map
      (fun p => (fromBytesBE p.1, p.2)) = some (n, rest) := by
  have hr := readBytesN_append (toBytesBE k n) rest
  rw [toBytesBE_length] at hr
  rw [hr]
  simp [fromBytesBE_toBytesBE k n h]

lemma unpackID_packID (s : TxID) (rest : List Byte) (h : s < 2 ^ 256) :
    unpackID (packID s ++ rest) = some (s, rest) := by
  have h2 : s < 256 ^ idLen := by
    rw [show (256 : Nat) ^ idLen = 2 ^ 256 from by
      rw [show (256 : Nat) = 2 ^ 8 from by norm_num, ← pow_mul]; norm_num [idLen]]
    exact h
  simpa [unpackID, packID] using unpack_toBytesBE idLen s rest h2

lemma unpackID_packID_any (s : TxID) (rest : List Byte) :
    unpackID (packID s ++ rest) = some (fromBytesBE (packID s), rest) := by
  have hr := readBytesN_append (packID s) rest
  rw [show (packID s).length = idLen from toBytesBE_length idLen s] at hr
  simp [unpackID, hr]

lemma unpackUint64_packUint64 (n : Nat) (rest : List Byte) (h : n < u64Bound) :
    unpackUint64 (packUint64 n ++ rest) = some (n, rest) := by
  have h2 : n < 256 ^ uint64Len := by
    rw [show (256 : Nat) ^ uint64Len = 2 ^ 64 from by
      rw [show (256 : Nat) = 2 ^ 8 from by norm_num, ← pow_mul]; norm_num [uint64Len]]
    simpa [u64Bound] using h
  simpa [unpackUint64, packUint64] using unpack_toBytesBE uint64Len n rest h2

lemma unpackAddress_packAddress (a : Address) (rest : List Byte) (h : a < 2 ^ 264) :
    unpackAddress (packAddress a ++ rest) = some (a, rest) := by
  have h2 : a < 256 ^ addressLen := by
    rw [show (256 : Nat) ^ addressLen = 2 ^ 264 from by
      rw [show (256 : Nat) = 2 ^ 8 from by norm_num, ← pow_mul]; norm_num [addressLen]]
    exact h
  simpa [unpackAddress, packAddress] using unpack_toBytesBE addressLen a rest h2

lemma unpackUint64_short (b : List Byte) (h : b.length < uint64Len) :
    unpackUint64 b = none := by
  simp [unpackUint64, readBytesN_short _ _ h]

lemma unpackAddress_short (b : List Byte) (h : b.length < addressLen) :
    unpackAddress b = none := by
  simp [unpackAddress, readBytesN_short _ _ h]

lemma unpackID_short (b : List Byte) (h : b.length < idLen) :
    unpackID b = none := by
  simp [unpackID, readBytesN_short _ _ h]

lemma unpackLBytes_short_header (limit : Nat) (required : Bool) (b : List Byte)
    (h : b.length < 4) : unpackLBytes limit required b = none := by
  simp [unpackLBytes, readBytesN_short _ _ h]

lemma unpackLBytes_packLBytes (limit : Nat) (required : Bool) (bs rest : List Byte)
    (hlim : bs.length ≤ limit) (hlen : bs.length < 2 ^ 32)
    (hreq : required = true → bs ≠ []) :
    unpackLBytes limit required (packLBytes bs ++ rest) = some (bs, rest) := by
  have hr := readBytesN_append (toBytesBE 4 bs.length) (bs ++ rest)
  rw [toBytesBE_length] at hr
  have hfr : fromBytesBE (toBytesBE 4 bs.length) = bs.length :=
    fromBytesBE_toBytesBE 4 _ (by norm_num; omega)
  rw [unpackLBytes, packLBytes, List.append_assoc, hr]
  simp only [hfr]
  have hz : ¬(required = true ∧ bs.length = 0) := by
    rintro ⟨hq, h0⟩
    exact hreq hq (List.eq_nil_of_length_eq_zero h0)
  rw [if_neg (by simpa using hz), if_neg (by omega)]
  exact readBytesN_append bs rest

lemma marshalUnstakeValidator_length (a : UnstakeValidatorAction) :
    (marshalUnstakeValidator a).length = 36 + a.nodeID.length := by
  simp [marshalUnstakeValidator, packID, packLBytes, toBytesBE_length, idLen]
  omega

lemma marshalDelegateUserStake_length (a : DelegateUserStakeAction) :
    (marshalDelegateUserStake a).length = 61 + a.nodeID.length := by
  simp [marshalDelegateUserStake, packLBytes, packUint64, packAddress,
    toBytesBE_length, uint64Len, addressLen]
  omega

lemma unpackUint64_packUint64_any (n : Nat) (rest : List Byte) :
    unpackUint64 (packUint64 n ++ rest) = some (fromBytesBE (packUint64 n), rest) := by
  have hr := readBytesN_append (packUint64 n) rest
  rw [show (packUint64 n).length = uint64Len from toBytesBE_length uint64Len n] at hr
  simp [unpackUint64, hr]

lemma nodeID_length_lt_pow32 (l : List Byte) (hn : l.length ≤ nodeIDLen) :
    l.length < 2 ^ 32 := by
  have h20 : nodeIDLen = 20 := rfl
  have : (20 : Nat) < 2 ^ 32 := by norm_num
  omega

lemma decodeUnstakeValidator_marshal (a : UnstakeValidatorAction)
    (hs : a.stake < 2 ^ 256) (hn : a.nodeID.length ≤ nodeIDLen) :
    decodeUnstakeValidator (marshalUnstakeValidator a) = some a := by
  have h1 := unpackID_packID a.stake (packLBytes a.nodeID) hs
  have h2 : unpackLBytes nodeIDLen false (packLBytes a.nodeID ++ []) =
      some (a.nodeID, []) :=
    unpackLBytes_packLBytes _ _ _ _ hn (nodeID_length_lt_pow32 _ hn) (by simp)
  rw [List.append_nil] at h2
  simp [decodeUnstakeValidator, unmarshalUnstakeValidatorBody,
    marshalUnstakeValidator, h1, h2]

lemma decodeUnstakeValidator_truncated (a : UnstakeValidatorAction)
    (hn : a.nodeID.length ≤ nodeIDLen) (k : Nat)
    (hk : k < (marshalUnstakeValidator a).length) :
    decodeUnstakeValidator ((marshalUnstakeValidator a).take k) = none := by
  have hml := marshalUnstakeValidator_length a
  rw [hml] at hk
  have hid : (packID a.stake).length = idLen := toBytesBE_length idLen a.stake
  by_cases h1 : k < idLen
  · have hlen : ((marshalUnstakeValidator a).take k).length < idLen := by
      rw [List.length_take, hml]
      have : idLen = 32 := rfl
      omega
    simp [decodeUnstakeValidator, unmarshalUnstakeValidatorBody,
      unpackID_short _ hlen]
  · push_neg at h1
    have hsplit : (marshalUnstakeValidator a).take k =
        packID a.stake ++ (packLBytes a.nodeID).take (k - idLen) := by
      rw [marshalUnstakeValidator, take_append_ge _ _ _ (by rw [hid]; exact h1), hid]
    rw [hsplit]
    have h4l : (toBytesBE 4 a.nodeID.length).length = 4 := toBytesBE_length 4 _
    have hfail : unpackLBytes nodeIDLen false ((packLBytes a.nodeID).take (k - idLen)) =
        none := by
      by_cases h2 : k - idLen < 4
      · apply unpackLBytes_short_header
        rw [List.length_take, packLBytes, List.length_append, h4l]
        omega
      · push_neg at h2
        have hsplit2 : (packLBytes a.nodeID).take (k - idLen) =
            toBytesBE 4 a.nodeID.length ++ a.nodeID.take (k - idLen - 4) := by
          rw [packLBytes, take_append_ge _ _ _ (by rw [h4l]; exact h2), h4l]
        rw [hsplit2]
        have hr := readBytesN_append (toBytesBE 4 a.nodeID.length)
          (a.nodeID.take (k - idLen - 4))
        rw [h4l] at hr
        rw [unpackLBytes, hr]
        simp only [fromBytesBE_toBytesBE 4 _ (nodeID_length_lt_pow32 _ hn)]
        rw [if_neg (by simp), if_neg (by omega)]
        apply readBytesN_short
        rw [List.length_take]
        have h32 : idLen = 32 := rfl
        omega
    simp [decodeUnstakeValidator, unmarshalUnstakeValidatorBody,
      unpackID_packID_any, hfail]

lemma decodeUnstakeValidator_overlength (a : UnstakeValidatorAction)
    (hn : a.nodeID.length ≤ nodeIDLen) (extra : List Byte) (hx : extra ≠ []) :
    decodeUnstakeValidator (marshalUnstakeValidator a ++ extra) = none := by
  have h2 : unpackLBytes nodeIDLen false (packLBytes a.nodeID ++ extra) =
      some (a.nodeID, extra) :=
    unpackLBytes_packLBytes _ _ _ _ hn (nodeID_length_lt_pow32 _ hn) (by simp)
  rw [marshalUnstakeValidator, List.append_assoc]
  cases extra with
  | nil => exact absurd rfl hx
  | cons b t =>
      simp [decodeUnstakeValidator, unmarshalUnstakeValidatorBody,
        unpackID_packID_any, h2]

lemma decodeDelegateUserStake_marshal (a : DelegateUserStakeAction)
    (hne : a.nodeID ≠ []) (hn : a.nodeID.length ≤ nodeIDLen)
    (hsb : a.stakeStartBlock < u64Bound) (heb : a.stakeEndBlock < u64Bound)
    (hsa : a.stakedAmount < u64Bound) (hra : a.rewardAddress < 2 ^ 264) :
    decodeDelegateUserStake (marshalDelegateUserStake a) = some a := by
  have h4 : unpackAddress (packAddress a.rewardAddress ++ []) =
      some (a.rewardAddress, []) := unpackAddress_packAddress _ _ hra
  rw [List.append_nil] at h4
  have h3 := unpackUint64_packUint64 a.stakedAmount (packAddress a.rewardAddress) hsa
  have h2 := unpackUint64_packUint64 a.stakeEndBlock
    (packUint64 a.stakedAmount ++ packAddress a.rewardAddress) heb
  have h1 := unpackUint64_packUint64 a.stakeStartBlock
    (packUint64 a.stakeEndBlock ++
      (packUint64 a.stakedAmount ++ packAddress a.rewardAddress)) hsb
  have h0 := unpackLBytes_packLBytes nodeIDLen true a.nodeID
    (packUint64 a.stakeStartBlock ++ (packUint64 a.stakeEndBlock ++
      (packUint64 a.stakedAmount ++ packAddress a.rewardAddress)))
    hn (nodeID_length_lt_pow32 _ hn) (fun _ => hne)
  simp [decodeDelegateUserStake, unmarshalDelegateUserStakeBody,
    marshalDelegateUserStake, List.append_assoc, h0, h1, h2, h3, h4]

lemma decodeDelegateUserStake_truncated (a : DelegateUserStakeAction)
    (hne : a.nodeID ≠ []) (hn : a.nodeID.length ≤ nodeIDLen) (k : Nat)
    (hk : k < (marshalDelegateUserStake a).length) :
    decodeDelegateUserStake ((marshalDelegateUserStake a).take k) = none := by
  have hml := marshalDelegateUserStake_length a
  rw [hml] at hk
  have hnel : 0 < a.nodeID.length := List.length_pos.mpr hne
  have h4l : (toBytesBE 4 a.nodeID.length).length = 4 := toBytesBE_length 4 _
  have hpll : (packLBytes a.nodeID).length = 4 + a.nodeID.length := by
    rw [packLBytes, List.length_append, h4l]
  have hu8 : ∀ n : Nat, (packUint64 n).length = 8 := fun n => by
    simp [packUint64, toBytesBE_length, uint64Len]
  have ha33 : (packAddress a.rewardAddress).length = 33 := by
    simp [packAddress, toBytesBE_length, addressLen]
  have hmlen : (marshalDelegateUserStake a).length = 61 + a.nodeID.length := hml
  simp only [marshalDelegateUserStake, List.append_assoc] at hk ⊢
  by_cases hA : k < 4
  · have hlen : ((packLBytes a.nodeID ++ (packUint64 a.stakeStartBlock ++
        (packUint64 a.stakeEndBlock ++ (packUint64 a.stakedAmount ++
          packAddress a.rewardAddress)))).take k).length < 4 := by
      rw [List.length_take]
      omega
    simp [decodeDelegateUserStake, unmarshalDelegateUserStakeBody,
      unpackLBytes_short_header _ _ _ hlen]
  · push_neg at hA
    by_cases hB : k < 4 + a.nodeID.length
    · -- the whole take lies inside the length-bytes field
      have hsplit : (packLBytes a.nodeID ++ (packUint64 a.stakeStartBlock ++
          (packUint64 a.stakeEndBlock ++ (packUint64 a.stakedAmount ++
            packAddress a.rewardAddress)))).take k =
          toBytesBE 4 a.nodeID.length ++ a.nodeID.take (k - 4) := by
        rw [List.take_append_eq_append_take, hpll,
          show k - (4 + a.nodeID.length) = 0 from by omega, List.take_zero,
          List.append_nil, packLBytes,
          take_append_ge _ _ _ (by rw [h4l]; exact hA), h4l]
      rw [hsplit]
      have hr := readBytesN_append (toBytesBE 4 a.nodeID.length)
        (a.nodeID.take (k - 4))
      rw [h4l] at hr
      have hfail : unpackLBytes nodeIDLen true
          (toBytesBE 4 a.nodeID.length ++ a.nodeID.take (k - 4)) = none := by
        rw [unpackLBytes, hr]
        simp only [fromBytesBE_toBytesBE 4 _ (nodeID_length_lt_pow32 _ hn)]
        rw [if_neg (by omega), if_neg (by omega)]
        apply readBytesN_short
        rw [List.length_take]
        omega
      simp [decodeDelegateUserStake, unmarshalDelegateUserStakeBody, hfail]
    · push_neg at hB
      -- the node-id field is complete; split it off
      have hsplit : (packLBytes a.nodeID ++ (packUint64 a.stakeStartBlock ++
          (packUint64 a.stakeEndBlock ++ (packUint64 a.stakedAmount ++
            packAddress a.rewardAddress)))).take k =
          packLBytes a.nodeID ++ ((packUint64 a.stakeStartBlock ++
            (packUint64 a.stakeEndBlock ++ (packUint64 a.stakedAmount ++
              packAddress a.rewardAddress))).take (k - (4 + a.nodeID.length))) := by
        rw [take_append_ge _ _ _ (by rw [hpll]; omega), hpll]
      rw [hsplit]
      have h0 := unpackLBytes_packLBytes nodeIDLen true a.nodeID
        ((packUint64 a.stakeStartBlock ++ (packUint64 a.stakeEndBlock ++
          (packUint64 a.stakedAmount ++ packAddress a.rewardAddress))).take
            (k - (4 + a.nodeID.length)))
        hn (nodeID_length_lt_pow32 _ hn) (fun _ => hne)
      by_cases hC : k - (4 + a.nodeID.length) < 8
      · have hfail : unpackUint64 ((packUint64 a.stakeStartBlock ++
            (packUint64 a.stakeEndBlock ++ (packUint64 a.stakedAmount ++
              packAddress a.rewardAddress))).take (k - (4 + a.nodeID.length))) =
            none := by
          apply unpackUint64_short
          rw [List.length_take]
          have : uint64Len = 8 := rfl
          omega
        simp [decodeDelegateUserStake, unmarshalDelegateUserStakeBody, h0, hfail]
      · push_neg at hC
        have hsplit2 : (packUint64 a.stakeStartBlock ++
            (packUint64 a.stakeEndBlock ++ (packUint64 a.stakedAmount ++
              packAddress a.rewardAddress))).take (k - (4 + a.nodeID.length)) =
            packUint64 a.stakeStartBlock ++ ((packUint64 a.stakeEndBlock ++
              (packUint64 a.stakedAmount ++ packAddress a.rewardAddress)).take
                (k - (4 + a.nodeID.length) - 8)) := by
          rw [take_append_ge _ _ _ (by rw [hu8]; omega), hu8]
        rw [hsplit2] at h0 ⊢
        by_cases hD : k - (4 + a.nodeID.length) - 8 < 8
        · have hfail : unpackUint64 ((packUint64 a.stakeEndBlock ++
              (packUint64 a.stakedAmount ++ packAddress a.rewardAddress)).take
                (k - (4 + a.nodeID.length) - 8)) = none := by
            apply unpackUint64_short
            rw [List.length_take]
            have : uint64Len = 8 := rfl
            omega
          simp [decodeDelegateUserStake, unmarshalDelegateUserStakeBody, h0,
            unpackUint64_packUint64_any, hfail]
        · push_neg at hD
          have hsplit3 : (packUint64 a.stakeEndBlock ++
              (packUint64 a.stakedAmount ++ packAddress a.rewardAddress)).take
                (k - (4 + a.nodeID.length) - 8) =
              packUint64 a.stakeEndBlock ++ ((packUint64 a.stakedAmount ++
                packAddress a.rewardAddress).take
                  (k - (4 + a.nodeID.length) - 16)) := by
            have harith : k - (4 + a.nodeID.length) - 8 - 8 =
                k - (4 + a.nodeID.length) - 16 := by omega
            rw [take_append_ge _ _ _ (by rw [hu8]; omega), hu8, harith]
          rw [hsplit3] at h0 ⊢
          by_cases hE : k - (4 + a.nodeID.length) - 16 < 8
          · have hfail : unpackUint64 ((packUint64 a.stakedAmount ++
                packAddress a.rewardAddress).take
                  (k - (4 + a.nodeID.length) - 16)) = none := by
              apply unpackUint64_short
              rw [List.length_take]
              have : uint64Len = 8 := rfl
              omega
            simp [decodeDelegateUserStake, unmarshalDelegateUserStakeBody, h0,
              unpackUint64_packUint64_any, hfail]
          · push_neg at hE
            have hsplit4 : (packUint64 a.stakedAmount ++
                packAddress a.rewardAddress).take
                  (k - (4 + a.nodeID.length) - 16) =
                packUint64 a.stakedAmount ++ ((packAddress a.rewardAddress).take
                  (k - (4 + a.nodeID.length) - 24)) := by
              have harith : k - (4 + a.nodeID.length) - 16 - 8 =
                  k - (4 + a.nodeID.length) - 24 := by omega
              rw [take_append_ge _ _ _ (by rw [hu8]; omega), hu8, harith]
            rw [hsplit4] at h0 ⊢
            have hfail : unpackAddress ((packAddress a.rewardAddress).take
                (k - (4 + a.nodeID.length) - 24)) = none := by
              apply unpackAddress_short
              rw [List.length_take]
              have : addressLen = 33 := rfl
              omega
            simp [decodeDelegateUserStake, unmarshalDelegateUserStakeBody, h0,
              unpackUint64_packUint64_any, hfail]

lemma decodeDelegateUserStake_overlength (a : DelegateUserStakeAction)
    (hne : a.nodeID ≠ []) (hn : a.nodeID.length ≤ nodeIDLen)
    (hra : a.rewardAddress < 2 ^ 264) (extra : List Byte) (hx : extra ≠ []) :
    decodeDelegateUserStake (marshalDelegateUserStake a ++ extra) = none := by
  have h4 := unpackAddress_packAddress a.rewardAddress extra hra
  have h3 := unpackUint64_packUint64_any a.stakedAmount
    (packAddress a.rewardAddress ++ extra)
  have h2 := unpackUint64_packUint64_any a.stakeEndBlock
    (packUint64 a.stakedAmount ++ (packAddress a.rewardAddress ++ extra))
  have h1 := unpackUint64_packUint64_any a.stakeStartBlock
    (packUint64 a.stakeEndBlock ++ (packUint64 a.stakedAmount ++
      (packAddress a.rewardAddress ++ extra)))
  have h0 := unpackLBytes_packLBytes nodeIDLen true a.nodeID
    (packUint64 a.stakeStartBlock ++ (packUint64 a.stakeEndBlock ++
      (packUint64 a.stakedAmount ++ (packAddress a.rewardAddress ++ extra))))
    hn (nodeID_length_lt_pow32 _ hn) (fun _ => hne)
  cases extra with
  | nil => exact absurd rfl hx
  | cons b t =>
      simp [decodeDelegateUserStake, unmarshalDelegateUserStakeBody,
        marshalDelegateUserStake, List.append_assoc, h0, h1, h2, h3, h4]

lemma marshalWithdrawValidatorStake_length (a : WithdrawValidatorStakeAction) :
    (marshalWithdrawValidatorStake a).length = 4 + a.nodeID.length := by
  simp [marshalWithdrawValidatorStake, packLBytes, toBytesBE_length]

lemma decodeWithdrawValidatorStake_marshal (a : WithdrawValidatorStakeAction)
    (hne : a.nodeID ≠ []) (hn : a.nodeID.length ≤ nodeIDLen) :
    decodeWithdrawValidatorStake (marshalWithdrawValidatorStake a) = some a := by
  have h0 : unpackLBytes nodeIDLen true (packLBytes a.nodeID ++ []) =
      some (a.nodeID, []) :=
    unpackLBytes_packLBytes _ _ _ _ hn (nodeID_length_lt_pow32 _ hn)
      (fun _ => hne)
  rw [List.append_nil] at h0
  simp [decodeWithdrawValidatorStake, unmarshalWithdrawValidatorStakeBody,
    marshalWithdrawValidatorStake, h0]

lemma decodeWithdrawValidatorStake_truncated (a : WithdrawValidatorStakeAction)
    (hne : a.nodeID ≠ []) (hn : a.nodeID.length ≤ nodeIDLen) (k : Nat)
    (hk : k < (marshalWithdrawValidatorStake a).length) :
    decodeWithdrawValidatorStake ((marshalWithdrawValidatorStake a).take k) =
      none := by
  have hml := marshalWithdrawValidatorStake_length a
  rw [hml] at hk
  have hnel : 0 < a.nodeID.length := List.length_pos.mpr hne
  have h4l : (toBytesBE 4 a.nodeID.length).length = 4 := toBytesBE_length 4 _
  by_cases hA : k < 4
  · have hlen : ((marshalWithdrawValidatorStake a).take k).length < 4 := by
      rw [List.length_take, hml]
      omega
    simp [decodeWithdrawValidatorStake, unmarshalWithdrawValidatorStakeBody,
      unpackLBytes_short_header _ _ _ hlen]
  · push_neg at hA
    have hsplit : (marshalWithdrawValidatorStake a).take k =
        toBytesBE 4 a.nodeID.length ++ a.nodeID.take (k - 4) := by
      rw [marshalWithdrawValidatorStake, packLBytes,
        take_append_ge _ _ _ (by rw [h4l]; exact hA), h4l]
    rw [hsplit]
    have hr := readBytesN_append (toBytesBE 4 a.nodeID.length)
      (a.nodeID.take (k - 4))
    rw [h4l] at hr
    have hfail : unpackLBytes nodeIDLen true
        (toBytesBE 4 a.nodeID.length ++ a.nodeID.take (k - 4)) = none := by
      rw [unpackLBytes, hr]
      simp only [fromBytesBE_toBytesBE 4 _ (nodeID_length_lt_pow32 _ hn)]
      rw [if_neg (by omega), if_neg (by omega)]
      apply readBytesN_short
      rw [List.length_take]
      omega
    simp [decodeWithdrawValidatorStake, unmarshalWithdrawValidatorStakeBody,
      hfail]

lemma decodeWithdrawValidatorStake_overlength (a : WithdrawValidatorStakeAction)
    (hne : a.nodeID ≠ []) (hn : a.nodeID.length ≤ nodeIDLen)
    (extra : List Byte) (hx : extra ≠ []) :
    decodeWithdrawValidatorStake (marshalWithdrawValidatorStake a ++ extra) =
      none := by
  have h0 := unpackLBytes_packLBytes nodeIDLen true a.nodeID extra hn
    (nodeID_length_lt_pow32 _ hn) (fun _ => hne)
  cases extra with
  | nil => exact absurd rfl hx
  | cons b t =>
      simp [decodeWithdrawValidatorStake, unmarshalWithdrawValidatorStakeBody,
        marshalWithdrawValidatorStake, h0]

/-! ### Genesis lemmas -/

/-- Total balance of an allocation list. -/
def allocSum (allocs : List CustomAllocation) : Nat :=
  (allocs.map fun al => al.balance).sum

lemma setAsset_ok (led : Ledger) (h : led.faults.onSetAsset = false)
    (asset : AssetID) (symbol : String) (decimals : Nat) (name : String)
    (supply : Nat) (owner : Address) (isWarp : Bool) :
    setAsset led asset symbol decimals name supply owner isWarp = .ok
      { led with assets := fun t =>
        if t = asset then some ⟨symbol, decimals, name, supply, owner, isWarp⟩
        else led.assets t } := by
  simp [setAsset, h]

lemma setBalance_ok (led : Ledger) (h : led.faults.onSetBalance = false)
    (addr : Address) (asset : AssetID) (amount : Nat) :
    setBalance led addr asset amount = .ok { led with
      balances := fun a t =>
        if a = addr ∧ t = asset then amount else led.balances a t } := by
  simp [setBalance, h]

lemma loadAllocations_inv (p : String → Option Address)
    (allocs : List CustomAllocation) :
    ∀ led supply ledF sF,
      loadAllocations p allocs led supply = .ok (ledF, sF) →
      ledF.faults = led.faults ∧ ledF.assets = led.assets ∧
        ledF.stakes = led.stakes ∧ ledF.validatorStakes = led.validatorStakes ∧
        ledF.delegations = led.delegations ∧ sF = supply + allocSum allocs := by
  induction allocs with
  | nil =>
      intro led supply ledF sF h
      simp only [loadAllocations, Except.ok.injEq, Prod.mk.injEq] at h
      obtain ⟨h1, h2⟩ := h
      subst h1; subst h2
      simp [allocSum]
  | cons al rest ih =>
      intro led supply ledF sF h
      simp only [loadAllocations] at h
      cases hp : p al.address with
      | none => rw [hp] at h; simp only [] at h; simp at h
      | some addr =>
          rw [hp] at h
          simp only [] at h
          by_cases hov : supply + al.balance ≥ u64Bound
          · rw [if_pos hov] at h
            simp at h
          · rw [if_neg hov] at h
            by_cases hf : led.faults.onSetBalance
            · simp [setBalance, hf] at h
            · rw [setBalance_ok led (by simp [hf]) addr idEmpty al.balance] at h
              simp only [] at h
              obtain ⟨f1, f2, f3, f4, f5, f6⟩ := ih _ _ _ _ h
              refine ⟨f1, f2, f3, f4, f5, ?_⟩
              rw [f6]
              simp [allocSum]
              omega

lemma loadAllocations_ok_iff (p : String → Option Address)
    (allocs : List CustomAllocation) :
    ∀ led supply, led.faults.onSetBalance = false →
      ((∃ r, loadAllocations p allocs led supply = .ok r) ↔
        ((∀ al ∈ allocs, (p al.address).isSome) ∧
          (allocs = [] ∨ supply + allocSum allocs < u64Bound))) := by
  induction allocs with
  | nil =>
      intro led supply _
      simp [loadAllocations]
  | cons al rest ih =>
      intro led supply hf
      simp only [loadAllocations]
      cases hp : p al.address with
      | none =>
          simp only [List.mem_cons]
          constructor
          · rintro ⟨r, hr⟩
            simp at hr
          · rintro ⟨hall, _⟩
            have := hall al (Or.inl rfl)
            rw [hp] at this
            simp at this
      | some addr =>
          simp only []
          by_cases hov : supply + al.balance ≥ u64Bound
          · rw [if_pos hov]
            constructor
            · rintro ⟨r, hr⟩
              simp at hr
            · rintro ⟨_, hsum⟩
              rcases hsum with hsum | hsum
              · simp at hsum
              · simp only [allocSum, List.map_cons, List.sum_cons] at hsum
                omega
          · rw [if_neg hov]
            rw [setBalance_ok led hf addr idEmpty al.balance]
            simp only []
            have hiff := ih { led with
              balances := fun a t =>
                if a = addr ∧ t = idEmpty then al.balance else led.balances a t }
              (supply + al.balance) hf
            rw [hiff]
            simp only [List.mem_cons]
            constructor
            · rintro ⟨hall, hsum⟩
              refine ⟨fun x hx => hx.elim
                (fun he => he ▸ (by rw [hp]; rfl)) (fun hm => hall x hm),
                Or.inr ?_⟩
              rcases hsum with hrest | hsum
              · subst hrest
                simp [allocSum]
                omega
              · simp only [allocSum, List.map_cons, List.sum_cons] at hsum ⊢
                omega
            · rintro ⟨hall, hsum⟩
              refine ⟨fun x hx => hall x (Or.inr hx), ?_⟩
              rcases hsum with hcons | hsum
              · simp at hcons
              · cases rest with
                | nil => exact Or.inl rfl
                | cons b t =>
                    refine Or.inr ?_
                    simp only [allocSum, List.map_cons, List.sum_cons] at hsum ⊢
                    omega

lemma loadAllocations_frame (p : String → Option Address)
    (allocs : List CustomAllocation) :
    ∀ led supply ledF sF addr,
      loadAllocations p allocs led supply = .ok (ledF, sF) →
      (∀ al ∈ allocs, p al.address ≠ some addr) →
      ∀ asset, ledF.balances addr asset = led.balances addr asset := by
  induction allocs with
  | nil =>
      intro led supply ledF sF addr h _ asset
      simp only [loadAllocations, Except.ok.injEq, Prod.mk.injEq] at h
      obtain ⟨h1, _⟩ := h
      subst h1; rfl
  | cons al rest ih =>
      intro led supply ledF sF addr h hne asset
      simp only [loadAllocations] at h
      cases hp : p al.address with
      | none => rw [hp] at h; simp only [] at h; simp at h
      | some a0 =>
          rw [hp] at h
          simp only [] at h
          by_cases hov : supply + al.balance ≥ u64Bound
          · rw [if_pos hov] at h
            simp at h
          · rw [if_neg hov] at h
            by_cases hf : led.faults.onSetBalance
            · simp [setBalance, hf] at h
            · rw [setBalance_ok led (by simp [hf]) a0 idEmpty al.balance] at h
              simp only [] at h
              have ha0 : a0 ≠ addr := by
                intro he
                exact hne al (List.mem_cons_self al rest) (he ▸ hp)
              have := ih _ _ _ _ addr h
                (fun x hx => hne x (List.mem_cons_of_mem al hx)) asset
              rw [this]
              simp [Ne.symm ha0]

lemma loadAllocations_sets (p : String → Option Address)
    (allocs : List CustomAllocation) :
    ∀ led supply ledF sF,
      loadAllocations p allocs led supply = .ok (ledF, sF) →
      (allocs.map fun al => p al.address).Pairwise (· ≠ ·) →
      ∀ al ∈ allocs, ∀ addr, p al.address = some addr →
        ledF.balances addr idEmpty = al.balance := by
  induction allocs with
  | nil =>
      intro led supply ledF sF _ _ al hal
      simp at hal
  | cons al0 rest ih =>
      intro led supply ledF sF h hdist al hal addr hp
      simp only [loadAllocations] at h
      cases hp0 : p al0.address with
      | none => rw [hp0] at h; simp only [] at h; simp at h
      | some a0 =>
          rw [hp0] at h
          simp only [] at h
          by_cases hov : supply + al0.balance ≥ u64Bound
          · rw [if_pos hov] at h
            simp at h
          · rw [if_neg hov] at h
            by_cases hf : led.faults.onSetBalance
            · simp [setBalance, hf] at h
            · rw [setBalance_ok led (by simp [hf]) a0 idEmpty al0.balance] at h
              simp only [] at h
              rw [List.map_cons, List.pairwise_cons] at hdist
              obtain ⟨hhead, htail⟩ := hdist
              rcases List.mem_cons.mp hal with he | hm
              · subst he
                have haddr : a0 = addr := by
                  rw [hp0] at hp
                  exact Option.some.inj hp
                subst haddr
                have hrest : ∀ x ∈ rest, p x.address ≠ some a0 := by
                  intro x hx he
                  exact hhead (p x.address)
                    (List.mem_map_of_mem _ hx) (by rw [he, hp0])
                have := loadAllocations_frame p rest _ _ _ _ a0 h hrest idEmpty
                rw [this]
                simp
              · exact ih _ _ _ _ h htail al hm addr hp

/-! ### Concrete sample states used by witnesses and counterexamples -/

/-- A 20-byte node id used in concrete examples. -/
def nid20 : List Byte := List.replicate 20 0

/-- A concrete stake record (keyed by stake tx id 1, owned by address 3). -/
def sampleStake : StakeRecord := ⟨nid20, 50, 0, 3⟩

/-- A concrete validator stake record: stake window ends at unix time 10,
principal 50, reward address 5, owner address 3. -/
def sampleVRec : ValidatorStakeRecord := ⟨0, 10, 50, 0, 5, 3⟩

/-- A concrete ledger: stake tx 1 and validator `nid20` registered, all
balances zero, no faults. -/
def baseLedger : Ledger where
  balances := fun _ _ => 0
  stakes := fun s => if s = 1 then some sampleStake else none
  validatorStakes := fun n => if n = nid20 then some sampleVRec else none
  delegations := fun _ _ => none
  assets := fun _ => none
  faults := noFaults

/-- A concrete emission state: height 0, last accepted timestamp 10,
validator `nid20` with accumulated reward 7, no delegations. -/
def baseEmission : EmissionState where
  lastAcceptedBlockHeight := 0
  lastAcceptedBlockTimestamp := 10
  validators := fun n => if n = nid20 then some 7 else none
  delegators := fun _ _ => false

/-- The concrete world combining `baseLedger` and `baseEmission`. -/
def baseWorld : World := ⟨baseLedger, baseEmission⟩

/-- `baseWorld` with a storage fault injected on `storage.GetStake`. -/
def faultGetStakeWorld : World :=
  ⟨{ baseLedger with faults := { noFaults with onGetStake := true } },
    baseEmission⟩

/-- `baseWorld` with every account holding balance 1000 (used for success
paths that debit the actor). -/
def richWorld : World :=
  ⟨{ baseLedger with balances := fun _ _ => 1000 }, baseEmission⟩

/-- The staking configuration used in concrete examples. -/
def sampleCfg : StakingConfig := ⟨100⟩

/-! ### Claim C10 -/

/-- C10: when the stake record exists, the caller is the recorded owner and
the supplied node id matches the staked one byte-for-byte,
`UnstakeValidator.Execute` succeeds and performs no write at all: the
returned world is exactly the input world. -/
theorem c10_unstake_success_no_writes
    (w : World) (act : UnstakeValidatorAction) (actor : Address)
    (r : StakeRecord)
    (hfault : w.ledger.faults.onGetStake = false)
    (hrec : w.ledger.stakes act.stake = some r)
    (howner : r.owner = actor)
    (hnode : r.nodeID = act.nodeID) :
    unstakeValidatorExecute w act actor =
      (⟨true, unstakeValidatorComputeUnits, .noBytes, none⟩, w) := by
  simp [unstakeValidatorExecute, getStake, hfault, hrec, howner, hnode]

/-- Witness for C10 at a concrete state. -/
theorem c10_unstake_success_no_writes_witness :
    unstakeValidatorExecute baseWorld ⟨1, nid20⟩ 3 =
      (⟨true, unstakeValidatorComputeUnits, .noBytes, none⟩, baseWorld) :=
  c10_unstake_success_no_writes baseWorld ⟨1, nid20⟩ 3 sampleStake
    (by rfl) (by rfl) (by rfl) (by rfl)

/-! ### Claim C3 -/

/-- C3: a non-owner caller of `UnstakeValidator.Execute` or
`WithdrawValidatorStake.Execute` gets `success = false` with the
authorization rejection payload, and an `UnstakeValidator` call whose node
id differs from the staked one gets the node-id-mismatch payload; in each
case the returned world is exactly the input world (no ledger or emission
mutation). -/
theorem c3_unauthorized_and_mismatch_rejections :
    (∀ (w : World) (act : UnstakeValidatorAction) (actor : Address)
        (r : StakeRecord),
      w.ledger.faults.onGetStake = false →
      w.ledger.stakes act.stake = some r →
      r.owner ≠ actor →
      unstakeValidatorExecute w act actor =
        (⟨false, unstakeValidatorComputeUnits, .unauthorized, none⟩, w)) ∧
    (∀ (w : World) (act : WithdrawValidatorStakeAction) (actor : Address)
        (now : Int) (r : ValidatorStakeRecord),
      act.nodeID.length = nodeIDLen →
      w.ledger.faults.onGetRegisterValidatorStake = false →
      w.ledger.validatorStakes act.nodeID = some r →
      r.ownerAddress ≠ actor →
      withdrawValidatorStakeExecute w act actor now =
        (⟨false, withdrawValidatorStakeComputeUnits, .unauthorized, none⟩, w)) ∧
    (∀ (w : World) (act : UnstakeValidatorAction) (actor : Address)
        (r : StakeRecord),
      w.ledger.faults.onGetStake = false →
      w.ledger.stakes act.stake = some r →
      r.owner = actor →
      r.nodeID ≠ act.nodeID →
      unstakeValidatorExecute w act actor =
        (⟨false, unstakeValidatorComputeUnits, .differentNodeIDThanStaked,
          none⟩, w)) := by
  refine ⟨?_, ?_, ?_⟩
  · intro w act actor r hfault hrec howner
    simp [unstakeValidatorExecute, getStake, hfault, hrec, howner]
  · intro w act actor now r hlen hfault hrec howner
    simp [withdrawValidatorStakeExecute, toNodeID, hlen,
      getRegisterValidatorStake, hfault, hrec, howner]
  · intro w act actor r hfault hrec howner hnode
    simp [unstakeValidatorExecute, getStake, hfault, hrec, howner, hnode]

/-- Witness for C3: a non-owner (address 4) against `baseWorld`. -/
theorem c3_unauthorized_witness :
    unstakeValidatorExecute baseWorld ⟨1, nid20⟩ 4 =
      (⟨false, unstakeValidatorComputeUnits, .unauthorized, none⟩, baseWorld) ∧
    withdrawValidatorStakeExecute baseWorld ⟨nid20⟩ 4 10 =
      (⟨false, withdrawValidatorStakeComputeUnits, .unauthorized, none⟩,
        baseWorld) ∧
    unstakeValidatorExecute baseWorld ⟨1, List.replicate 20 1⟩ 3 =
      (⟨false, unstakeValidatorComputeUnits, .differentNodeIDThanStaked,
        none⟩, baseWorld) :=
  ⟨c3_unauthorized_and_mismatch_rejections.1 baseWorld ⟨1, nid20⟩ 4
      sampleStake (by rfl) (by rfl) (by decide),
    c3_unauthorized_and_mismatch_rejections.2.1 baseWorld ⟨nid20⟩ 4 10
      sampleVRec (by decide) (by rfl) (by rfl) (by decide),
    c3_unauthorized_and_mismatch_rejections.2.2 baseWorld
      ⟨1, List.replicate 20 1⟩ 3 sampleStake (by rfl) (by rfl) (by rfl)
      (by decide)⟩

/-! ### Claim C5 -/

/-- C5 (amended): no execution path of `UnstakeValidator.Execute`,
`WithdrawValidatorStake.Execute` or `DelegateUserStake.Execute` returns a
non-nil Go error: storage failures are rendered into the output bytes with
`success = false` (or discarded where the call site ignores the read
error), never surfaced in the error position. -/
theorem c5_no_path_returns_error :
    (∀ (w : World) (act : UnstakeValidatorAction) (actor : Address),
      (unstakeValidatorExecute w act actor).1.err = none) ∧
    (∀ (w : World) (act : WithdrawValidatorStakeAction) (actor : Address)
        (now : Int),
      (withdrawValidatorStakeExecute w act actor now).1.err = none) ∧
    (∀ (cfg : StakingConfig) (w : World) (act : DelegateUserStakeAction)
        (actor : Address),
      (delegateUserStakeExecute cfg w act actor).1.err = none) := by
  refine ⟨?_, ?_, ?_⟩
  · intro w act actor
    simp only [unstakeValidatorExecute]
    repeat' split
    all_goals rfl
  · intro w act actor now
    simp only [withdrawValidatorStakeExecute]
    repeat' split
    all_goals rfl
  · intro cfg w act actor
    simp only [delegateUserStakeExecute]
    repeat' split
    all_goals rfl

/-- Counterexample for C5 as stated: with an I/O fault injected on the
stake-record read, `UnstakeValidator.Execute` reports the failure only in
the output bytes with `success = false`, and the error position of the
return tuple is nil. -/
theorem c5_counterexample_read_fault_not_error :
    (unstakeValidatorExecute faultGetStakeWorld ⟨1, nid20⟩ 3).1.err = none ∧
    (unstakeValidatorExecute faultGetStakeWorld ⟨1, nid20⟩ 3).1.success =
      false ∧
    (unstakeValidatorExecute faultGetStakeWorld ⟨1, nid20⟩ 3).1.output =
      .errBytes .ioFault := by
  decide

/-! ### Claim C6 -/

/-- C6 (amended): `WithdrawValidatorStake.Execute` is a function of the
declared inputs plus the wall-clock reading, and the wall clock influences
the result only through the comparison with the fetched record's stake-end
time: two wall-clock values on the same side of the stake-end time give
identical results (same outputs and same resulting state). -/
theorem c6_wallclock_dependence_is_stake_end_gate :
    ∀ (w : World) (act : WithdrawValidatorStakeAction) (actor : Address)
      (t1 t2 : Int),
      (∀ r : ValidatorStakeRecord,
        w.ledger.validatorStakes act.nodeID = some r →
        ((t1 < (r.stakeEndTime : Int)) ↔ (t2 < (r.stakeEndTime : Int)))) →
      withdrawValidatorStakeExecute w act actor t1 =
        withdrawValidatorStakeExecute w act actor t2 := by
  intro w act actor t1 t2 hiff
  by_cases hlen : act.nodeID.length = nodeIDLen
  · have htn : toNodeID act.nodeID = some act.nodeID := by
      simp [toNodeID, hlen]
    by_cases hfl : w.ledger.faults.onGetRegisterValidatorStake
    · simp [withdrawValidatorStakeExecute, htn, getRegisterValidatorStake, hfl]
    · have hfl2 : w.ledger.faults.onGetRegisterValidatorStake = false := by
        simpa using hfl
      rcases hl : w.ledger.validatorStakes act.nodeID with _ | r
      · simp [withdrawValidatorStakeExecute, htn, getRegisterValidatorStake,
          hfl2, hl]
      · by_cases howner : r.ownerAddress ≠ actor
        · simp [withdrawValidatorStakeExecute, htn, getRegisterValidatorStake,
            hfl2, hl, howner]
        · have hg := hiff r hl
          by_cases hcond : t1 < (r.stakeEndTime : Int) ∨
            w.emission.lastAcceptedBlockTimestamp < (r.stakeEndTime : Int)
          · have hcond2 : t2 < (r.stakeEndTime : Int) ∨
                w.emission.lastAcceptedBlockTimestamp <
                  (r.stakeEndTime : Int) := by tauto
            simp [withdrawValidatorStakeExecute, htn,
              getRegisterValidatorStake, hfl2, hl, howner, hcond, hcond2]
          · have hcond2 : ¬(t2 < (r.stakeEndTime : Int) ∨
                w.emission.lastAcceptedBlockTimestamp <
                  (r.stakeEndTime : Int)) := by tauto
            simp [withdrawValidatorStakeExecute, htn,
              getRegisterValidatorStake, hfl2, hl, howner, hcond, hcond2]
  · have htn : toNodeID act.nodeID = none := by simp [toNodeID, hlen]
    simp [withdrawValidatorStakeExecute, htn]

/-- Witness for the amended C6: two wall-clock values past the stake end
give identical results. -/
theorem c6_wallclock_witness :
    withdrawValidatorStakeExecute baseWorld ⟨nid20⟩ 3 11 =
      withdrawValidatorStakeExecute baseWorld ⟨nid20⟩ 3 12 :=
  c6_wallclock_dependence_is_stake_end_gate baseWorld ⟨nid20⟩ 3 11 12 (by
    intro r hr
    have hr2 : some sampleVRec = some r := by
      simpa [baseWorld, baseLedger] using hr
    rw [← Option.some.inj hr2]
    decide)

/-- Counterexample for C6 as stated: identical prior state, actor, fields
and emission state, but two different wall-clock readings
(`time.Now()` inside `Execute`), produce different success flags — the
execution is not a function of the claim's listed inputs alone. -/
theorem c6_counterexample_wallclock_changes_result :
    (withdrawValidatorStakeExecute baseWorld ⟨nid20⟩ 3 9).1.success = false ∧
    (withdrawValidatorStakeExecute baseWorld ⟨nid20⟩ 3 9).1.output =
      .stakeNotStarted ∧
    (withdrawValidatorStakeExecute baseWorld ⟨nid20⟩ 3 10).1.success = true := by
  decide

/-! ### Claim C2 -/

/-- C2: with the validator stake record present, the caller being the
recorded owner, both time gates satisfied, the emission engine holding an
accumulated reward, and no overflow, `WithdrawValidatorStake.Execute`
succeeds, credits exactly the staked principal to the owner, credits the
emission-engine reward to the reward address (the conditional terms make
the statement exact also when the reward address equals the owner, where
both credits land on the one account), and deletes the validator stake
record. -/
theorem c2_withdraw_success_credits_and_deletes
    (w : World) (act : WithdrawValidatorStakeAction) (actor : Address)
    (now : Int) (r : ValidatorStakeRecord) (reward : Nat)
    (hf : w.ledger.faults = noFaults)
    (hlen : act.nodeID.length = nodeIDLen)
    (hrec : w.ledger.validatorStakes act.nodeID = some r)
    (howner : r.ownerAddress = actor)
    (hg1 : (r.stakeEndTime : Int) ≤ now)
    (hg2 : (r.stakeEndTime : Int) ≤ w.emission.lastAcceptedBlockTimestamp)
    (hem : w.emission.validators act.nodeID = some reward)
    (hov1 : w.ledger.balances r.rewardAddress idEmpty + reward < u64Bound)
    (hov2 : w.ledger.balances actor idEmpty +
      (if actor = r.rewardAddress then reward else 0) + r.stakedAmount <
        u64Bound) :
    (withdrawValidatorStakeExecute w act actor now).1 =
      ⟨true, withdrawValidatorStakeComputeUnits,
        .stakeResult r.stakedAmount, none⟩ ∧
    (withdrawValidatorStakeExecute w act actor now).2.ledger.balances
      actor idEmpty = w.ledger.balances actor idEmpty +
        (if actor = r.rewardAddress then reward else 0) + r.stakedAmount ∧
    (withdrawValidatorStakeExecute w act actor now).2.ledger.balances
      r.rewardAddress idEmpty =
        w.ledger.balances r.rewardAddress idEmpty + reward +
          (if actor = r.rewardAddress then r.stakedAmount else 0) ∧
    (withdrawValidatorStakeExecute w act actor now).2.ledger.validatorStakes
      act.nodeID = none := by
  have htn : toNodeID act.nodeID = some act.nodeID := by simp [toNodeID, hlen]
  have hfa : w.ledger.faults.onGetRegisterValidatorStake = false := by
    rw [hf]; rfl
  have hab : w.ledger.faults.onAddBalance = false := by rw [hf]; rfl
  have hdl : w.ledger.faults.onDeleteRegisterValidatorStake = false := by
    rw [hf]; rfl
  have hgate : ¬(now < (r.stakeEndTime : Int) ∨
      w.emission.lastAcceptedBlockTimestamp < (r.stakeEndTime : Int)) := by
    push_neg
    exact ⟨hg1, hg2⟩
  have nov1 : ¬(w.ledger.balances r.rewardAddress idEmpty + reward ≥
      u64Bound) := by omega
  by_cases hc : actor = r.rewardAddress
  · subst hc
    simp at hov2
    have nov2 : ¬(w.ledger.balances r.rewardAddress idEmpty + reward +
        r.stakedAmount ≥ u64Bound) := by omega
    simp [withdrawValidatorStakeExecute, htn, getRegisterValidatorStake, hfa,
      hrec, howner, hgate, emissionWithdrawValidatorStake, hem, addBalance,
      deleteRegisterValidatorStake, hab, hdl, nov1, nov2]
  · simp only [if_neg hc, Nat.add_zero] at hov2
    have nov2 : ¬(w.ledger.balances actor idEmpty + r.stakedAmount ≥
        u64Bound) := by omega
    simp [withdrawValidatorStakeExecute, htn, getRegisterValidatorStake, hfa,
      hrec, howner, hgate, emissionWithdrawValidatorStake, hem, addBalance,
      deleteRegisterValidatorStake, hab, hdl, hc, Ne.symm hc, nov1, nov2]

/-- Witness for C2 at a concrete state with ample balances. -/
theorem c2_withdraw_success_witness :
    (withdrawValidatorStakeExecute richWorld ⟨nid20⟩ 3 10).1 =
      ⟨true, withdrawValidatorStakeComputeUnits, .stakeResult 50, none⟩ ∧
    (withdrawValidatorStakeExecute richWorld ⟨nid20⟩ 3 10).2.ledger.balances
      3 idEmpty = 1050 ∧
    (withdrawValidatorStakeExecute richWorld ⟨nid20⟩ 3 10).2.ledger.balances
      5 idEmpty = 1007 ∧
    (withdrawValidatorStakeExecute richWorld ⟨nid20⟩ 3 10).2.ledger.validatorStakes
      nid20 = none := by
  have h := c2_withdraw_success_credits_and_deletes richWorld ⟨nid20⟩ 3 10
    sampleVRec 7 (by rfl) (by decide) (by rfl) (by rfl) (by decide)
    (by decide) (by rfl) (by decide) (by decide)
  simpa [richWorld, baseLedger, sampleVRec] using h

/-! ### Claim C1 -/

/-- The rejection payloads produced by the domain checks that
`DelegateUserStake.Execute` performs before its first storage write: the
six explicit pre-checks plus the emission engine's duplicate-delegation
rejection (the emission engine leaves its state unchanged when it errors). -/
abbrev delegatePreCheckRejection (o : OutputPayload) : Prop :=
  o = .invalidNodeID ∨ o = .validatorNotYetRegistered ∨
  o = .userAlreadyStaked ∨ o = .delegateStakedAmountInvalid ∨
  o = .invalidStakeEndBlock ∨ o = .invalidStakeStartBlock ∨
  o = .errBytes .alreadyDelegatedInEmission

lemma subBalance_error_cases (led : Ledger) (addr : Address) (asset : AssetID)
    (amount : Nat) (e : GoError) (h : subBalance led addr asset amount = .error e) :
    e = .ioFault ∨ e = .invalidBalance := by
  unfold subBalance at h
  split at h
  · exact Or.inl (Except.error.inj h).symm
  · split at h
    · exact Or.inr (Except.error.inj h).symm
    · simp at h

lemma setDelegateUserStake_error_cases (led : Ledger) (owner : Address)
    (nodeID : NodeID) (startBlock endBlock amount : Nat)
    (rewardAddress : Address) (e : GoError)
    (h : setDelegateUserStake led owner nodeID startBlock endBlock amount
      rewardAddress = .error e) : e = .ioFault := by
  unfold setDelegateUserStake at h
  split at h
  · exact (Except.error.inj h).symm
  · simp at h

/-- C1 (amended): every rejection arising from one of
`DelegateUserStake.Execute`'s domain pre-checks (invalid node id,
unregistered validator, existing delegation, amount below the minimum,
invalid block window, or the emission engine's duplicate-delegation error)
occurs before any mutation, so the returned world equals the input world;
rejections arising from the balance debit or the delegation-record write
are not covered, because they occur after the emission-engine mutation. -/
theorem c1_precheck_rejections_leave_state_unchanged :
    ∀ (cfg : StakingConfig) (w : World) (act : DelegateUserStakeAction)
      (actor : Address),
      delegatePreCheckRejection
        (delegateUserStakeExecute cfg w act actor).1.output →
      (delegateUserStakeExecute cfg w act actor).2 = w := by
  intro cfg w act actor
  simp only [delegateUserStakeExecute]
  split
  · intro _; rfl
  · split
    · intro _; rfl
    · split
      · intro _; rfl
      · split
        · intro _; rfl
        · split
          · intro _; rfl
          · split
            · intro _; rfl
            · split
              · intro _; rfl
              · split
                · rename_i e heq
                  intro h
                  exfalso
                  rcases subBalance_error_cases _ _ _ _ _ heq with he | he <;>
                    subst he <;> simp [delegatePreCheckRejection] at h
                · split
                  · rename_i e heq
                    intro h
                    exfalso
                    have he := setDelegateUserStake_error_cases _ _ _ _ _ _ _ _ heq
                    subst he
                    simp [delegatePreCheckRejection] at h
                  · intro h
                    simp [delegatePreCheckRejection] at h

/-- Counterexample for C1 as stated: with every pre-check passing but the
actor's balance insufficient, `DelegateUserStake.Execute` rejects
(`success = false`, insufficient-balance message in the output bytes) yet
the emission engine's delegation bookkeeping has already been mutated. -/
theorem c1_counterexample_rejection_after_emission_mutation :
    (delegateUserStakeExecute sampleCfg baseWorld ⟨nid20, 1, 2, 100, 7⟩
      3).1.success = false ∧
    (delegateUserStakeExecute sampleCfg baseWorld ⟨nid20, 1, 2, 100, 7⟩
      3).1.output = .errBytes .invalidBalance ∧
    (delegateUserStakeExecute sampleCfg baseWorld ⟨nid20, 1, 2, 100, 7⟩
      3).2.emission.delegators 3 nid20 = true ∧
    baseWorld.emission.delegators 3 nid20 = false := by
  decide

/-- Witness for the amended C1: delegating to an unregistered validator is
rejected with the world unchanged. -/
theorem c1_precheck_witness :
    (delegateUserStakeExecute sampleCfg baseWorld
      ⟨List.replicate 20 1, 1, 2, 100, 7⟩ 3).2 = baseWorld :=
  c1_precheck_rejections_leave_state_unchanged sampleCfg baseWorld
    ⟨List.replicate 20 1, 1, 2, 100, 7⟩ 3 (by decide)

/-! ### Claim C4 -/

/-- C4: `DelegateUserStake.Execute` succeeds only when the target validator
is registered, the actor has no existing delegation to it,
`StakedAmount ≥ MinDelegatorStake`, `StakeEndBlock > StakeStartBlock`, and
`StakeStartBlock ≥` the last accepted block height (first conjunct); each
failing check yields `success = false` with its corresponding rejection
payload and the world unchanged (second conjunct); and on success the
actor's native balance is debited by `StakedAmount` and the delegation is
recorded in both the ledger and the emission engine (third conjunct). -/
theorem c4_delegate_conditions_and_effects :
    (∀ (cfg : StakingConfig) (w : World) (act : DelegateUserStakeAction)
        (actor : Address),
      w.ledger.faults = noFaults →
      (delegateUserStakeExecute cfg w act actor).1.success = true →
      (w.ledger.validatorStakes act.nodeID).isSome ∧
      w.ledger.delegations actor act.nodeID = none ∧
      cfg.minDelegatorStake ≤ act.stakedAmount ∧
      act.stakeStartBlock < act.stakeEndBlock ∧
      w.emission.lastAcceptedBlockHeight ≤ act.stakeStartBlock) ∧
    (∀ (cfg : StakingConfig) (w : World) (act : DelegateUserStakeAction)
        (actor : Address),
      w.ledger.faults = noFaults →
      act.nodeID.length = nodeIDLen →
      ((w.ledger.validatorStakes act.nodeID = none →
        delegateUserStakeExecute cfg w act actor =
          (⟨false, registerValidatorStakeComputeUnits,
            .validatorNotYetRegistered, none⟩, w)) ∧
      (∀ vr d, w.ledger.validatorStakes act.nodeID = some vr →
        w.ledger.delegations actor act.nodeID = some d →
        delegateUserStakeExecute cfg w act actor =
          (⟨false, delegateUserStakeComputeUnits, .userAlreadyStaked,
            none⟩, w)) ∧
      (∀ vr, w.ledger.validatorStakes act.nodeID = some vr →
        w.ledger.delegations actor act.nodeID = none →
        act.stakedAmount < cfg.minDelegatorStake →
        delegateUserStakeExecute cfg w act actor =
          (⟨false, delegateUserStakeComputeUnits,
            .delegateStakedAmountInvalid, none⟩, w)) ∧
      (∀ vr, w.ledger.validatorStakes act.nodeID = some vr →
        w.ledger.delegations actor act.nodeID = none →
        cfg.minDelegatorStake ≤ act.stakedAmount →
        act.stakeEndBlock ≤ act.stakeStartBlock →
        delegateUserStakeExecute cfg w act actor =
          (⟨false, delegateUserStakeComputeUnits, .invalidStakeEndBlock,
            none⟩, w)) ∧
      (∀ vr, w.ledger.validatorStakes act.nodeID = some vr →
        w.ledger.delegations actor act.nodeID = none →
        cfg.minDelegatorStake ≤ act.stakedAmount →
        act.stakeStartBlock < act.stakeEndBlock →
        act.stakeStartBlock < w.emission.lastAcceptedBlockHeight →
        delegateUserStakeExecute cfg w act actor =
          (⟨false, delegateUserStakeComputeUnits, .invalidStakeStartBlock,
            none⟩, w)))) ∧
    (∀ (cfg : StakingConfig) (w : World) (act : DelegateUserStakeAction)
        (actor : Address) (vr : ValidatorStakeRecord),
      w.ledger.faults = noFaults →
      act.nodeID.length = nodeIDLen →
      w.ledger.validatorStakes act.nodeID = some vr →
      w.ledger.delegations actor act.nodeID = none →
      cfg.minDelegatorStake ≤ act.stakedAmount →
      act.stakeStartBlock < act.stakeEndBlock →
      w.emission.lastAcceptedBlockHeight ≤ act.stakeStartBlock →
      w.emission.delegators actor act.nodeID = false →
      act.stakedAmount ≤ w.ledger.balances actor idEmpty →
      (delegateUserStakeExecute cfg w act actor).1 =
        ⟨true, delegateUserStakeComputeUnits, .noBytes, none⟩ ∧
      (delegateUserStakeExecute cfg w act actor).2.ledger.balances actor
        idEmpty = w.ledger.balances actor idEmpty - act.stakedAmount ∧
      (delegateUserStakeExecute cfg w act actor).2.ledger.delegations actor
        act.nodeID = some ⟨act.stakeStartBlock, act.stakeEndBlock,
          act.stakedAmount, act.rewardAddress⟩ ∧
      (delegateUserStakeExecute cfg w act actor).2.emission.delegators actor
        act.nodeID = true) := by
  refine ⟨?_, ?_, ?_⟩
  · intro cfg w act actor hf hs
    have hg : w.ledger.faults.onGetRegisterValidatorStake = false := by
      rw [hf]; rfl
    have hd : w.ledger.faults.onGetDelegateUserStake = false := by
      rw [hf]; rfl
    by_cases hlen : act.nodeID.length = nodeIDLen
    · have htn : toNodeID act.nodeID = some act.nodeID := by
        simp [toNodeID, hlen]
      rcases hv : w.ledger.validatorStakes act.nodeID with _ | vr
      · simp [delegateUserStakeExecute, htn, getRegisterValidatorStake, hg,
          hv] at hs
      · rcases hdl : w.ledger.delegations actor act.nodeID with _ | d
        · by_cases hamt : act.stakedAmount < cfg.minDelegatorStake
          · simp [delegateUserStakeExecute, htn, getRegisterValidatorStake,
              getDelegateUserStake, hg, hd, hv, hdl, hamt] at hs
          · by_cases hend : act.stakeEndBlock ≤ act.stakeStartBlock
            · simp [delegateUserStakeExecute, htn,
                getRegisterValidatorStake, getDelegateUserStake, hg, hd, hv,
                hdl, hamt, hend] at hs
            · by_cases hsh : act.stakeStartBlock <
                w.emission.lastAcceptedBlockHeight
              · simp [delegateUserStakeExecute, htn,
                  getRegisterValidatorStake, getDelegateUserStake, hg, hd,
                  hv, hdl, hamt, hend, hsh] at hs
              · exact ⟨by simp [hv], rfl, by omega, by omega, by omega⟩
        · simp [delegateUserStakeExecute, htn, getRegisterValidatorStake,
            getDelegateUserStake, hg, hd, hv, hdl] at hs
    · have htn : toNodeID act.nodeID = none := by simp [toNodeID, hlen]
      simp [delegateUserStakeExecute, htn] at hs
  · intro cfg w act actor hf hlen
    have hg : w.ledger.faults.onGetRegisterValidatorStake = false := by
      rw [hf]; rfl
    have hd : w.ledger.faults.onGetDelegateUserStake = false := by
      rw [hf]; rfl
    have htn : toNodeID act.nodeID = some act.nodeID := by
      simp [toNodeID, hlen]
    refine ⟨?_, ?_, ?_, ?_, ?_⟩
    · intro hv
      simp [delegateUserStakeExecute, htn, getRegisterValidatorStake, hg, hv]
    · intro vr d hv hdl
      simp [delegateUserStakeExecute, htn, getRegisterValidatorStake,
        getDelegateUserStake, hg, hd, hv, hdl]
    · intro vr hv hdl hamt
      simp [delegateUserStakeExecute, htn, getRegisterValidatorStake,
        getDelegateUserStake, hg, hd, hv, hdl, hamt]
    · intro vr hv hdl hamt hend
      have h1 : ¬(act.stakedAmount < cfg.minDelegatorStake) := by omega
      simp [delegateUserStakeExecute, htn, getRegisterValidatorStake,
        getDelegateUserStake, hg, hd, hv, hdl, h1, hend]
    · intro vr hv hdl hamt hend hsh
      have h1 : ¬(act.stakedAmount < cfg.minDelegatorStake) := by omega
      have h2 : ¬(act.stakeEndBlock ≤ act.stakeStartBlock) := by omega
      simp [delegateUserStakeExecute, htn, getRegisterValidatorStake,
        getDelegateUserStake, hg, hd, hv, hdl, h1, h2, hsh]
  · intro cfg w act actor vr hf hlen hv hdl hamt hend hsh hemd hbal
    have hg : w.ledger.faults.onGetRegisterValidatorStake = false := by
      rw [hf]; rfl
    have hd : w.ledger.faults.onGetDelegateUserStake = false := by
      rw [hf]; rfl
    have hsb : w.ledger.faults.onSubBalance = false := by rw [hf]; rfl
    have hsd : w.ledger.faults.onSetDelegateUserStake = false := by
      rw [hf]; rfl
    have htn : toNodeID act.nodeID = some act.nodeID := by
      simp [toNodeID, hlen]
    have h1 : ¬(act.stakedAmount < cfg.minDelegatorStake) := by omega
    have h2 : ¬(act.stakeEndBlock ≤ act.stakeStartBlock) := by omega
    have h3 : ¬(act.stakeStartBlock < w.emission.lastAcceptedBlockHeight) :=
      by omega
    have h4 : ¬(w.ledger.balances actor idEmpty < act.stakedAmount) := by
      omega
    simp [delegateUserStakeExecute, htn, getRegisterValidatorStake,
      getDelegateUserStake, hg, hd, hv, hdl, h1, h2, h3, h4, hemd,
      emissionDelegateUserStake, subBalance, setDelegateUserStake, hsb, hsd]

/-- Witness for C4: a successful delegation at a concrete state with ample
balance. -/
theorem c4_delegate_witness :
    (delegateUserStakeExecute sampleCfg richWorld ⟨nid20, 1, 2, 100, 7⟩
      3).1 = ⟨true, delegateUserStakeComputeUnits, .noBytes, none⟩ ∧
    (delegateUserStakeExecute sampleCfg richWorld ⟨nid20, 1, 2, 100, 7⟩
      3).2.ledger.balances 3 idEmpty =
        richWorld.ledger.balances 3 idEmpty - 100 ∧
    (delegateUserStakeExecute sampleCfg richWorld ⟨nid20, 1, 2, 100, 7⟩
      3).2.ledger.delegations 3 nid20 = some ⟨1, 2, 100, 7⟩ ∧
    (delegateUserStakeExecute sampleCfg richWorld ⟨nid20, 1, 2, 100, 7⟩
      3).2.emission.delegators 3 nid20 = true :=
  c4_delegate_conditions_and_effects.2.2 sampleCfg richWorld
    ⟨nid20, 1, 2, 100, 7⟩ 3 sampleVRec (by rfl) (by decide) (by rfl)
    (by rfl) (by decide) (by decide) (by decide) (by rfl) (by decide)

/-! ### Claim C7 -/

/-- C7: for `UnstakeValidator`, `DelegateUserStake` and
`WithdrawValidatorStake` with valid field values (id within 32 bytes, node
id within the node-id length and non-empty where the decoder requires it,
`uint64` fields within range, address within 33 bytes), decoding the
marshalled bytes returns an equal action value; decoding fails on every
strict prefix (truncated buffer) and on every strict extension
(over-length buffer). -/
theorem c7_marshal_roundtrip_and_rejection :
    (∀ a : UnstakeValidatorAction, a.stake < 2 ^ 256 →
      a.nodeID.length ≤ nodeIDLen →
      decodeUnstakeValidator (marshalUnstakeValidator a) = some a ∧
      (∀ k, k < (marshalUnstakeValidator a).length →
        decodeUnstakeValidator ((marshalUnstakeValidator a).take k) = none) ∧
      (∀ extra, extra ≠ [] →
        decodeUnstakeValidator (marshalUnstakeValidator a ++ extra) =
          none)) ∧
    (∀ a : DelegateUserStakeAction, a.nodeID ≠ [] →
      a.nodeID.length ≤ nodeIDLen → a.stakeStartBlock < u64Bound →
      a.stakeEndBlock < u64Bound → a.stakedAmount < u64Bound →
      a.rewardAddress < 2 ^ 264 →
      decodeDelegateUserStake (marshalDelegateUserStake a) = some a ∧
      (∀ k, k < (marshalDelegateUserStake a).length →
        decodeDelegateUserStake ((marshalDelegateUserStake a).take k) =
          none) ∧
      (∀ extra, extra ≠ [] →
        decodeDelegateUserStake (marshalDelegateUserStake a ++ extra) =
          none)) ∧
    (∀ a : WithdrawValidatorStakeAction, a.nodeID ≠ [] →
      a.nodeID.length ≤ nodeIDLen →
      decodeWithdrawValidatorStake (marshalWithdrawValidatorStake a) =
        some a ∧
      (∀ k, k < (marshalWithdrawValidatorStake a).length →
        decodeWithdrawValidatorStake
          ((marshalWithdrawValidatorStake a).take k) = none) ∧
      (∀ extra, extra ≠ [] →
        decodeWithdrawValidatorStake (marshalWithdrawValidatorStake a ++
          extra) = none)) := by
  refine ⟨?_, ?_, ?_⟩
  · intro a hs hn
    exact ⟨decodeUnstakeValidator_marshal a hs hn,
      fun k hk => decodeUnstakeValidator_truncated a hn k hk,
      fun extra hx => decodeUnstakeValidator_overlength a hn extra hx⟩
  · intro a hne hn h1 h2 h3 h4
    exact ⟨decodeDelegateUserStake_marshal a hne hn h1 h2 h3 h4,
      fun k hk => decodeDelegateUserStake_truncated a hne hn k hk,
      fun extra hx => decodeDelegateUserStake_overlength a hne hn h4 extra hx⟩
  · intro a hne hn
    exact ⟨decodeWithdrawValidatorStake_marshal a hne hn,
      fun k hk => decodeWithdrawValidatorStake_truncated a hne hn k hk,
      fun extra hx => decodeWithdrawValidatorStake_overlength a hne hn
        extra hx⟩

/-- Witness for C7: concrete round trips and a concrete truncation. -/
theorem c7_roundtrip_witness :
    decodeUnstakeValidator (marshalUnstakeValidator ⟨5, nid20⟩) =
      some ⟨5, nid20⟩ ∧
    decodeUnstakeValidator ((marshalUnstakeValidator ⟨5, nid20⟩).take 10) =
      none ∧
    decodeDelegateUserStake (marshalDelegateUserStake
      ⟨nid20, 1, 2, 100, 7⟩) = some ⟨nid20, 1, 2, 100, 7⟩ ∧
    decodeWithdrawValidatorStake (marshalWithdrawValidatorStake ⟨nid20⟩) =
      some ⟨nid20⟩ :=
  ⟨(c7_marshal_roundtrip_and_rejection.1 ⟨5, nid20⟩ (by norm_num)
      (by decide)).1,
    (c7_marshal_roundtrip_and_rejection.1 ⟨5, nid20⟩ (by norm_num)
      (by decide)).2.1 10 (by decide),
    (c7_marshal_roundtrip_and_rejection.2.1 ⟨nid20, 1, 2, 100, 7⟩ (by decide)
      (by decide) (by norm_num [u64Bound]) (by norm_num [u64Bound])
      (by norm_num [u64Bound]) (by norm_num)).1,
    (c7_marshal_roundtrip_and_rejection.2.2 ⟨nid20⟩ (by decide)
      (by decide)).1⟩

/-! ### Claim C8 -/

/-- C8 is a code bug: `Size()` does not equal the number of bytes written
by `Marshal`.  `UnstakeValidator.Size()` returns only `IDLen = 32`, while
its `Marshal` writes the 32-byte id plus the length-prefixed node id
(56 bytes for a 20-byte node id); `DelegateUserStake.Size()` omits the
4-byte length of the node-id field (77 vs 81 bytes). -/
theorem c8_size_marshal_mismatch :
    unstakeValidatorSize = 32 ∧
    (marshalUnstakeValidator ⟨5, nid20⟩).length = 56 ∧
    delegateUserStakeSize = 77 ∧
    (marshalDelegateUserStake ⟨nid20, 1, 2, 100, 7⟩).length = 81 := by
  decide

/-! ### Claim C9 -/

/-- C9: with working storage, `Genesis.Load` succeeds exactly when the
state branch factor is valid, every allocation address parses, and the sum
of allocation balances fits in `uint64`; on success each (distinctly
addressed) allocation's native balance equals its listed balance and the
native asset record carries the exact total as supply. -/
theorem c9_genesis_load_characterization :
    ∀ (parseAddr : String → Option Address) (g : GenesisCfg) (led : Ledger),
      led.faults = noFaults →
      ((∃ ledF, genesisLoad parseAddr g led = .ok ledF) ↔
        (branchFactorValid g.stateBranchFactor ∧
         (∀ al ∈ g.customAllocation, (parseAddr al.address).isSome) ∧
         allocSum g.customAllocation < u64Bound)) ∧
      (∀ ledF, genesisLoad parseAddr g led = .ok ledF →
        (((g.customAllocation.map fun al => parseAddr al.address).Pairwise
            (· ≠ ·)) →
          ∀ al ∈ g.customAllocation, ∀ addr,
            parseAddr al.address = some addr →
            ledF.balances addr idEmpty = al.balance) ∧
        ledF.assets idEmpty = some ⟨nativeSymbol, nativeDecimals, nativeName,
          allocSum g.customAllocation, emptyAddress, false⟩) := by
  intro p g led hf
  have hsb : led.faults.onSetBalance = false := by rw [hf]; rfl
  constructor
  · constructor
    · rintro ⟨ledF, hok⟩
      unfold genesisLoad at hok
      split at hok
      · simp at hok
      · rename_i hbv
        rw [not_not] at hbv
        cases hla : loadAllocations p g.customAllocation led 0 with
        | error e => rw [hla] at hok; simp at hok
        | ok r =>
            have hexr : ∃ r, loadAllocations p g.customAllocation led 0 =
                .ok r := ⟨r, hla⟩
            have := (loadAllocations_ok_iff p g.customAllocation led 0
              hsb).mp hexr
            refine ⟨hbv, this.1, ?_⟩
            rcases this.2 with hnil | hlt
            · rw [hnil]
              simp [allocSum, u64Bound]
            · omega
    · rintro ⟨hbv, hall, hsum⟩
      obtain ⟨r, hr⟩ := (loadAllocations_ok_iff p g.customAllocation led 0
        hsb).mpr ⟨hall, Or.inr (by omega)⟩
      unfold genesisLoad
      rw [if_neg (by simpa using hbv)]
      rcases r with ⟨led1, supply⟩
      rw [hr]
      have hinv := loadAllocations_inv p g.customAllocation led 0 led1
        supply hr
      have hsa : led1.faults.onSetAsset = false := by
        rw [hinv.1, hf]; rfl
      exact ⟨_, setAsset_ok led1 hsa idEmpty nativeSymbol nativeDecimals
        nativeName supply emptyAddress false⟩
  · intro ledF hok
    unfold genesisLoad at hok
    split at hok
    · simp at hok
    · cases hla : loadAllocations p g.customAllocation led 0 with
      | error e => rw [hla] at hok; simp at hok
      | ok r =>
          rcases r with ⟨led1, supply⟩
          rw [hla] at hok
          simp only [] at hok
          have hinv := loadAllocations_inv p g.customAllocation led 0 led1
            supply hla
          have hsa : led1.faults.onSetAsset = false := by
            rw [hinv.1, hf]; rfl
          unfold setAsset at hok
          rw [hsa] at hok
          simp only [Bool.false_eq_true, if_false] at hok
          have hEq := Except.ok.inj hok
          subst hEq
          constructor
          · intro hdist al hal addr hp
            have hset := loadAllocations_sets p g.customAllocation led 0
              led1 supply hla hdist al hal addr hp
            simpa using hset
          · have hsup : supply = allocSum g.customAllocation := by
              have := hinv.2.2.2.2.2
              omega
            simp [hsup]

/-- The empty ledger used by the C9 witness. -/
def emptyLedger : Ledger :=
  ⟨fun _ _ => 0, fun _ => none, fun _ => none, fun _ _ => none,
    fun _ => none, noFaults⟩

/-- A concrete bech32 parser stand-in for the C9 witness. -/
def sampleParse : String → Option Address :=
  fun s => if s = "a" then some 8 else none

/-- A concrete genesis configuration for the C9 witness. -/
def sampleGenesis : GenesisCfg := ⟨16, [⟨"a", 500⟩]⟩

/-- Witness for C9: a concrete well-formed genesis loads successfully. -/
theorem c9_genesis_load_witness :
    ∃ ledF, genesisLoad sampleParse sampleGenesis emptyLedger = .ok ledF :=
  ((c9_genesis_load_characterization sampleParse sampleGenesis emptyLedger
    rfl).1).mpr ⟨by decide, by decide, by decide⟩

end NuklaiVM
